import Mathlib

/-!
Verification of the `modes-sensing` frontend job-polling core.

The definitions below are a shallow embedding of the TypeScript sources:
* `useGraphJobs` (the client polling state machine: `handlePollingFailure`,
  `pollStatus`, `createJobs`, `reloadJob`, the auto-retry effect);
* `getStageText` from the graph display component;
* `getImageUrl` from the legacy graph display component;
* a registry/dedup gate modelled from the specification (the backend is not
  part of the frontend sources).

JavaScript objects keyed by graph name are embedded as association lists
`List (String × GraphJob)`; object-spread key update is `setKey` (replace the
first occurrence of the key, append when absent, which coincides with the
JavaScript semantics because object keys are unique).  Machine numbers that
the code merely stores or compares are embedded as `Int`/`Nat`.
-/

namespace ModesSensing

/-- `JobStatusValue` from `types/api.ts`:
`"pending" | "processing" | "completed" | "failed" | "timeout"`. -/
inductive JobStatusValue
  | pending
  | processing
  | completed
  | failed
  | timeout
deriving DecidableEq, Repr

/-- `GraphJob` record of `useGraphJobs`. -/
structure GraphJob where
  jobId : String
  graphName : String
  status : JobStatusValue
  progress : Int
  error : Option String
  resultUrl : Option String
  elapsedSeconds : Option Int
  stage : Option String
  startTime : Option Int
  retryCount : Nat
  isRetrying : Bool
  pollingFailureCount : Nat
deriving DecidableEq, Repr

/-- One entry of the `BatchStatusResponse.jobs` record (`BatchJobStatusInfo`
in `types/api.ts`). -/
structure BatchJobStatusInfo where
  status : JobStatusValue
  progress : Int
  error : Option String
  elapsed_seconds : Option Int
  stage : Option String
deriving DecidableEq, Repr

/-- One entry of the `CreateJobsResponse.jobs` array (`JobInfo`). -/
structure JobInfo where
  job_id : String
  graph_name : String
deriving DecidableEq, Repr

/-- The mutable state of the `useGraphJobs` hook: the `jobs` record, the
`jobIdsRef` list of polled ids, the `pendingRetriesRef` list of graphs
awaiting an automatic retry, whether the polling interval is installed
(`pollingRef.current !== null`) and the `isLoading` flag. -/
structure HookState where
  jobs : List (String × GraphJob)
  jobIds : List String
  pendingRetries : List String
  pollingActive : Bool
  isLoading : Bool
deriving DecidableEq, Repr

/-- The hook state before any job has been created. -/
def initState : HookState :=
  { jobs := [], jobIds := [], pendingRetries := [], pollingActive := false,
    isLoading := false }

/-- Read a key of a JavaScript object embedded as an association list. -/
def getKey : List (String × GraphJob) → String → Option GraphJob
  | [], _ => none
  | (k', v) :: rest, k => if k' = k then some v else getKey rest k

/-- Write a key of a JavaScript object embedded as an association list:
replace the first binding when the key is present, append otherwise. -/
def setKey : List (String × GraphJob) → String → GraphJob → List (String × GraphJob)
  | [], k, v => [(k, v)]
  | (k', v') :: rest, k, v =>
      if k' = k then (k, v) :: rest else (k', v') :: setKey rest k v

/-- `POLLING_FAILURE_THRESHOLD = 5`. -/
def POLLING_FAILURE_THRESHOLD : Nat := 5

/-- The result endpoint path interpolated in `pollStatus`. -/
def resultPath (jobId : String) : String :=
  "/modes-sensing/api/graph/job/" ++ jobId ++ "/result"

/-- JavaScript `x || null` on a `string | null` value: both `null` and the
empty string collapse to `null` (used for `stage: status.stage || null`). -/
def jsOrNull : Option String → Option String
  | none => none
  | some s => if s = "" then none else some s

/-- The per-job body of the `Object.keys(updated).forEach` loop in
`handlePollingFailure`: jobs still pending/processing get their failure
count incremented, and are flipped to `failed` when the new count reaches
the threshold and the job has never been retried. -/
def failJobUpdate (msg : String) (job : GraphJob) : GraphJob :=
  if job.status = .pending ∨ job.status = .processing then
    let j1 := { job with pollingFailureCount := job.pollingFailureCount + 1 }
    if POLLING_FAILURE_THRESHOLD ≤ job.pollingFailureCount + 1 ∧ job.retryCount = 0 then
      { j1 with status := .failed, error := some msg }
    else j1
  else job

/-- The graph names pushed onto `retryTargets` by `handlePollingFailure`,
in iteration order. -/
def failRetryTargets (jobs : List (String × GraphJob)) : List String :=
  jobs.filterMap (fun p =>
    if (p.2.status = .pending ∨ p.2.status = .processing) ∧
        POLLING_FAILURE_THRESHOLD ≤ p.2.pollingFailureCount + 1 ∧ p.2.retryCount = 0 then
      some p.1
    else none)

/-- `handlePollingFailure(errorMessage)`: increment the failure count of
every pending/processing job, fail-and-queue-for-retry those that reach the
threshold with `retryCount === 0`, and append the retry targets to
`pendingRetriesRef` when there are any. -/
def handlePollingFailure (msg : String) (s : HookState) : HookState :=
  let updated := s.jobs.map (fun p => (p.1, failJobUpdate msg p.2))
  let retryTargets := failRetryTargets s.jobs
  { s with
    jobs := updated
    pendingRetries :=
      if retryTargets.isEmpty then s.pendingRetries
      else s.pendingRetries ++ retryTargets }

/-- `status.status === "completed" || "failed" || "timeout"` (`isCompleted`
in `pollStatus`). -/
def isTerminalStatus (v : JobStatusValue) : Bool :=
  v == .completed || v == .failed || v == .timeout

/-- `status.status === "failed" || "timeout"` (`isFailed` in `pollStatus`). -/
def isFailedStatus (v : JobStatusValue) : Bool :=
  v == .failed || v == .timeout

/-- The loop-carried state of the `Object.entries(data.jobs).forEach` loop
in the `pollStatus` success handler. -/
structure PollAcc where
  updated : List (String × GraphJob)
  allCompleted : Bool
  completedJobIds : List String
  retryTargets : List String
deriving DecidableEq, Repr

/-- The overwrite applied to the matched job record for one response entry:
status, progress, error, elapsed seconds and stage are taken from the
response (`status.stage || null` collapses the empty string), the failure
counter is reset, and `resultUrl` is the result endpoint path exactly on
`completed`. -/
def pollNewJob (entry : String × BatchJobStatusInfo) (job : GraphJob) : GraphJob :=
  { job with
    status := entry.2.status
    progress := entry.2.progress
    error := entry.2.error
    elapsedSeconds := entry.2.elapsed_seconds
    stage := jsOrNull entry.2.stage
    pollingFailureCount := 0
    resultUrl :=
      if entry.2.status = .completed then some (resultPath entry.1) else none }

/-- One iteration of the `Object.entries(data.jobs).forEach` loop: find the
tracked graph whose job id matches the entry (entries with no tracked job
are ignored), queue an automatic retry for never-retried jobs reported
failed/timeout, and overwrite the job record with the reported status. -/
def pollStep (acc : PollAcc) (entry : String × BatchJobStatusInfo) : PollAcc :=
  match acc.updated.find? (fun p => p.2.jobId == entry.1) with
  | none => acc
  | some pr =>
    let st := entry.2
    let retryTargets :=
      if isFailedStatus st.status ∧ pr.2.retryCount = 0 then
        acc.retryTargets ++ [pr.1]
      else acc.retryTargets
    { updated := setKey acc.updated pr.1 (pollNewJob entry pr.2)
      allCompleted := acc.allCompleted && isTerminalStatus st.status
      completedJobIds :=
        if isTerminalStatus st.status then acc.completedJobIds ++ [entry.1]
        else acc.completedJobIds
      retryTargets := retryTargets }

/-- The loop state at the start of the `pollStatus` entry loop:
`allCompleted = true`, empty `completedJobIds` and `retryTargets`. -/
def pollInit (s : HookState) : PollAcc :=
  { updated := s.jobs, allCompleted := true, completedJobIds := [], retryTargets := [] }

/-- The value of `pollStep` when the entry matches the tracked pair
`(g, job)` (see `pollStep_found`). -/
def pollStepFound (acc : PollAcc) (e : String × BatchJobStatusInfo) (g : String)
    (job : GraphJob) : PollAcc :=
  { updated := setKey acc.updated g (pollNewJob e job)
    allCompleted := acc.allCompleted && isTerminalStatus e.2.status
    completedJobIds :=
      if isTerminalStatus e.2.status then acc.completedJobIds ++ [e.1]
      else acc.completedJobIds
    retryTargets :=
      if isFailedStatus e.2.status ∧ job.retryCount = 0 then acc.retryTargets ++ [g]
      else acc.retryTargets }

/-- The `setJobs` updater of the `pollStatus` success path, together with
its side effects on `pendingRetriesRef`, `jobIdsRef`, the polling interval
and `isLoading`. -/
def applyPollResponse (data : List (String × BatchJobStatusInfo)) (s : HookState) :
    HookState :=
  let acc := data.foldl pollStep (pollInit s)
  let stopNow := acc.allCompleted && acc.retryTargets.isEmpty
  { jobs := acc.updated
    pendingRetries :=
      if acc.retryTargets.isEmpty then s.pendingRetries
      else s.pendingRetries ++ acc.retryTargets
    jobIds :=
      if acc.completedJobIds.isEmpty then s.jobIds
      else s.jobIds.filter (fun id => !(acc.completedJobIds.contains id))
    pollingActive := if stopNow then false else s.pollingActive
    isLoading := if stopNow then false else s.isLoading }

/-- A `pollStatus` call whose `batchStatus` fetch succeeds; `pollStatus`
returns immediately when `jobIdsRef.current` is empty. -/
def pollSuccess (data : List (String × BatchJobStatusInfo)) (s : HookState) : HookState :=
  if s.jobIds.isEmpty then s else applyPollResponse data s

/-- A `pollStatus` call whose `batchStatus` fetch fails (non-OK response or
network error): `handlePollingFailure` runs with the error message. -/
def pollFailure (msg : String) (s : HookState) : HookState :=
  if s.jobIds.isEmpty then s else handlePollingFailure msg s

/-- The initial record built for each entry of a `CreateJobsResponse` in
`createJobs`. -/
def initialJob (j : JobInfo) (now : Int) : GraphJob :=
  { jobId := j.job_id
    graphName := j.graph_name
    status := .pending
    progress := 0
    error := none
    resultUrl := none
    elapsedSeconds := none
    stage := none
    startTime := some now
    retryCount := 0
    isRetrying := false
    pollingFailureCount := 0 }

/-- The success path of `createJobs`: replace the jobs record and the
polled id list wholesale and (re)start polling.  `pendingRetriesRef` is a
ref and is not cleared. -/
def createJobsSuccess (data : List JobInfo) (now : Int) (s : HookState) : HookState :=
  { jobs := data.foldl (fun m j => setKey m j.graph_name (initialJob j now)) []
    jobIds := data.map (fun j => j.job_id)
    pendingRetries := s.pendingRetries
    pollingActive := true
    isLoading := true }

/-- The record update of the first `setJobs` of `reloadJob` on auto-retry:
`isRetrying: true, status: "pending", progress: 0, error: null`. -/
def preJob (j : GraphJob) : GraphJob :=
  { j with isRetrying := true, status := .pending, progress := 0, error := none }

/-- The record update of the `reloadJob` catch handler on auto-retry:
`status: "failed", error: "接続エラー", isRetrying: false`. -/
def failRetryJob (j : GraphJob) : GraphJob :=
  { j with status := .failed, error := some "接続エラー", isRetrying := false }

/-- The first `setJobs` of `reloadJob` when `isAutoRetry` is set: mark the
existing record as retrying/pending before the replacement `create()` call.
(The auto-retry effect only targets graph names present in the record.) -/
def preRetrySet (g : String) (s : HookState) : HookState :=
  match getKey s.jobs g with
  | some j => { s with jobs := setKey s.jobs g (preJob j) }
  | none => s

/-- The success path of `reloadJob(graphName, isAutoRetry)` for a response
containing one new job id: install a fresh pending record (bumping
`retryCount` on auto-retry), add the new id to the polled set and restart
polling if it had stopped. -/
def reloadJobSuccess (g : String) (isAutoRetry : Bool) (newJobId : String) (now : Int)
    (s : HookState) : HookState :=
  let s1 := if isAutoRetry then preRetrySet g s else s
  let prevRetryCount :=
    match getKey s1.jobs g with
    | some j => j.retryCount
    | none => 0
  let newRec : GraphJob :=
    { jobId := newJobId
      graphName := g
      status := .pending
      progress := 0
      error := none
      resultUrl := none
      elapsedSeconds := none
      stage := none
      startTime := some now
      retryCount := if isAutoRetry then prevRetryCount + 1 else 0
      isRetrying := isAutoRetry
      pollingFailureCount := 0 }
  let s2 := { s1 with jobs := setKey s1.jobs g newRec, jobIds := s1.jobIds ++ [newJobId] }
  if s2.pollingActive then s2 else { s2 with pollingActive := true, isLoading := true }

/-- The failure (catch) path of `reloadJob(graphName, isAutoRetry)`: on
auto-retry the record (already marked retrying/pending by the first
`setJobs`) is flipped to `failed` with a connection-error message; a failed
manual reload leaves the state unchanged. -/
def reloadJobFailure (g : String) (isAutoRetry : Bool) (s : HookState) : HookState :=
  let s1 := if isAutoRetry then preRetrySet g s else s
  if isAutoRetry then
    match getKey s1.jobs g with
    | some j => { s1 with jobs := setKey s1.jobs g (failRetryJob j) }
    | none => s1
  else s1

/-- The auto-retry `useEffect`: drain `pendingRetriesRef` and issue one
`reloadJob(graphName, true)` call per drained entry.  The first component
is the list of replacement `create()` calls issued, in order. -/
def autoRetryDrain (s : HookState) : List String × HookState :=
  if s.pendingRetries.isEmpty then ([], s)
  else (s.pendingRetries, { s with pendingRetries := [] })

/-- One observable transition of the `useGraphJobs` state machine. -/
inductive Step : HookState → HookState → Prop
  | createOk (data : List JobInfo) (now : Int) (s : HookState) :
      Step s (createJobsSuccess data now s)
  | pollOk (data : List (String × BatchJobStatusInfo)) (s : HookState) :
      Step s (pollSuccess data s)
  | pollFail (msg : String) (s : HookState) :
      Step s (pollFailure msg s)
  | reloadOk (g : String) (isAutoRetry : Bool) (newJobId : String) (now : Int)
      (s : HookState) :
      Step s (reloadJobSuccess g isAutoRetry newJobId now s)
  | reloadFail (g : String) (isAutoRetry : Bool) (s : HookState) :
      Step s (reloadJobFailure g isAutoRetry s)
  | drain (s : HookState) :
      Step s (autoRetryDrain s).2

/-- The progress-only branch of `getStageText`: the stage label guessed
from the numeric progress, with breakpoints at 10, 40, 70 and 90. -/
def stageFromProgress (progress : Int) : String :=
  if progress ≤ 10 then "データベース接続中..."
  else if progress ≤ 40 then "データ取得中..."
  else if progress ≤ 70 then "データ処理中..."
  else if progress ≤ 90 then "グラフ描画中..."
  else "画像生成中..."

/-- `getStageText(stage, progress)` from the graph display component.
`if (stage) return stage` tests JavaScript truthiness, so both `null` and
the empty string fall through to the progress heuristic. -/
def getStageText (stage : Option String) (progress : Int) : String :=
  match stage with
  | some s => if s = "" then stageFromProgress progress else s
  | none => stageFromProgress progress

/-! ### The legacy image-URL path (`getImageUrl` in the old `GraphDisplay`) -/

/-- `JSON.stringify` on a string value (quotes the string, escaping `"`
and `\`; the date strings passed here contain neither). -/
def jsonStringify (s : String) : String :=
  let esc : Char → String := fun c =>
    if c = '"' then "\\\"" else if c = '\\' then "\\\\" else String.singleton c
  "\"" ++ String.join (s.toList.map esc) ++ "\""

/-- Upper-case hexadecimal digit. -/
def hexDigit (n : Nat) : Char :=
  if n < 10 then Char.ofNat (48 + n) else Char.ofNat (55 + n)

/-- `application/x-www-form-urlencoded` escape of one ASCII character, as
`URLSearchParams.toString` produces: alphanumerics and `*-._` verbatim,
space as `+`, anything else percent-encoded. -/
def formEncodeChar (c : Char) : String :=
  if c.isAlphanum || c = '*' || c = '-' || c = '.' || c = '_' then String.singleton c
  else if c = ' ' then "+"
  else "%" ++ String.singleton (hexDigit (c.toNat / 16 % 16))
    ++ String.singleton (hexDigit (c.toNat % 16))

/-- `application/x-www-form-urlencoded` escape of a whole string. -/
def formEncode (s : String) : String :=
  String.join (s.toList.map formEncodeChar)

/-- Serialize key/value pairs the way `URLSearchParams` interpolated into a
template string does. -/
def searchParamsString (ps : List (String × String)) : String :=
  String.intercalate "&" (ps.map (fun p => formEncode p.1 ++ "=" ++ formEncode p.2))

/-- `10 * 60 * 1000` (`tenMinutesInMs`). -/
def tenMinutesInMs : Nat := 10 * 60 * 1000

/-- `getImageUrl(graph, forceReload)` from the legacy `GraphDisplay`
component, as a function of the request parameters, the wall clock
`now.getTime()` in milliseconds, and the random string produced by
`Math.random().toString(36).substr(2, 9)` (used only on `forceReload`). -/
def getImageUrl (endpoint startISO endISO : String) (limit_altitude : Bool)
    (nowMs : Nat) (forceReload : Bool) (randomStr : String) : String :=
  let timestamp :=
    if forceReload then nowMs
    else nowMs / tenMinutesInMs * tenMinutesInMs
  let baseParams : List (String × String) :=
    [("start", jsonStringify startISO),
     ("end", jsonStringify endISO),
     ("limit_altitude", if limit_altitude then "true" else "false"),
     ("_t", toString timestamp)]
  let params := if forceReload then baseParams ++ [("_r", randomStr)] else baseParams
  endpoint ++ "?" ++ searchParamsString params

/-! ### The server-side fingerprint registry / dedup gate -/

/-- Modelled from the spec: the backend job registry (`job_manager.py`) is
not among the frontend sources; this models the server-side `Job` record of
section 3 restricted to the fields the dedup gate of section 4.2 consults
(id, fingerprint, status, artifact expiry). -/
structure RegJob where
  id : Nat
  fingerprint : String
  status : JobStatusValue
  artifactExpired : Bool
deriving DecidableEq, Repr

/-- A job is live when it is Pending or Processing (non-terminal). -/
def RegJob.live (j : RegJob) : Prop :=
  j.status = .pending ∨ j.status = .processing

instance (j : RegJob) : Decidable j.live := by
  unfold RegJob.live; infer_instance

/-- Modelled from the spec: the registry state behind the dedup gate —
the job records, a fresh-id counter, and the FIFO queue of job ids handed
to the worker pool (each enqueued id is one render-pipeline execution). -/
structure Registry where
  jobs : List RegJob
  nextId : Nat
  queue : List Nat
deriving DecidableEq, Repr

/-- Modelled from the spec: `getOrCreate(fingerprint) -> jobId` (section
4.2), executed atomically: (1) return a live job for the fingerprint if one
exists, (2) else return a Completed, non-expired job if one exists, (3)
else register a fresh Pending job and enqueue it. -/
def getOrCreate (fp : String) (r : Registry) : Nat × Registry :=
  match r.jobs.find? (fun j => j.fingerprint == fp && decide j.live) with
  | some j => (j.id, r)
  | none =>
      match r.jobs.find? (fun j =>
          j.fingerprint == fp && j.status == .completed && !j.artifactExpired) with
      | some j => (j.id, r)
      | none =>
          let newJob : RegJob :=
            { id := r.nextId, fingerprint := fp, status := .pending,
              artifactExpired := false }
          (r.nextId,
            { jobs := r.jobs ++ [newJob], nextId := r.nextId + 1,
              queue := r.queue ++ [r.nextId] })

/-- The registry invariant of section 3: for any fingerprint, at most one
non-terminal job exists at a time. -/
abbrev AtMostOneLive (r : Registry) : Prop :=
  ∀ j₁ ∈ r.jobs, ∀ j₂ ∈ r.jobs,
    j₁.live → j₂.live → j₁.fingerprint = j₂.fingerprint → j₁ = j₂

/-- Ids already registered are below the fresh-id counter. -/
abbrev FreshIds (r : Registry) : Prop :=
  ∀ j ∈ r.jobs, j.id < r.nextId

/-! ### Derived notions used by the statements -/

/-- The projection of a jobs-record entry that `pollStatus` never changes:
its key, its job id and its retry count. -/
def jobKeyInfo (p : String × GraphJob) : String × String × Nat :=
  (p.1, p.2.jobId, p.2.retryCount)

/-- The graph names key the jobs record without duplicates (a JavaScript
object cannot have two equal keys). -/
abbrev KeysNodup (s : HookState) : Prop :=
  (s.jobs.map Prod.fst).Nodup

/-- A hook state reachable from the initial state by observable
transitions. -/
def Reachable (s : HookState) : Prop :=
  Relation.ReflTransGen Step initState s

/-- The `resultUrl` coherence property of one record: `resultUrl` is
non-null exactly when the status is `completed`, and then it is the result
endpoint path of that record's job id. -/
def jobUrlOk (j : GraphJob) : Prop :=
  (j.resultUrl ≠ none ↔ j.status = .completed) ∧
  ∀ u, j.resultUrl = some u → u = resultPath j.jobId

/-- The `resultUrl` coherence property over the whole jobs record. -/
def ResultUrlInv (jobs : List (String × GraphJob)) : Prop :=
  ∀ p ∈ jobs, jobUrlOk p.2

/-! ### Concrete states used to instantiate the theorems -/

/-- A `BatchStatusResponse` entry reporting a server-side failure. -/
def failedInfo : BatchJobStatusInfo :=
  { status := .failed, progress := 50, error := some "boom",
    elapsed_seconds := some 3, stage := none }

/-- A `BatchStatusResponse` entry reporting completion. -/
def completedInfo : BatchJobStatusInfo :=
  { status := .completed, progress := 100, error := none,
    elapsed_seconds := some 3, stage := none }

/-- A `BatchStatusResponse` entry reporting mid-render progress. -/
def processingInfo : BatchJobStatusInfo :=
  { status := .processing, progress := 40, error := none,
    elapsed_seconds := some 1, stage := some "rendering" }

/-- The hook state right after `createJobs` succeeded for the single graph
`"g"` with job id `"j1"`. -/
def startState : HookState := createJobsSuccess [⟨"j1", "g"⟩] 0 initState

/-- The record tracked in `startState`. -/
def startJob : GraphJob := initialJob ⟨"j1", "g"⟩ 0

/-- `startState` after `n` consecutive transport failures of the status
poll. -/
def fixJobs (n : Nat) : HookState :=
  (List.range n).foldl (fun s _ => pollFailure "e" s) startState

/-- The tracked record after four consecutive transport failures. -/
def w1job : GraphJob :=
  { jobId := "j1", graphName := "g", status := .pending, progress := 0,
    error := none, resultUrl := none, elapsedSeconds := none, stage := none,
    startTime := some 0, retryCount := 0, isRetrying := false,
    pollingFailureCount := 4 }

/-- A replacement job (already auto-retried once) that has again suffered
four consecutive transport failures. -/
def c4state : HookState :=
  (List.range 4).foldl (fun s _ => pollFailure "e" s)
    (reloadJobSuccess "g" true "j2" 1 (fixJobs 5))

/-- The replacement record tracked in `c4state`. -/
def c4job : GraphJob :=
  { jobId := "j2", graphName := "g", status := .pending, progress := 0,
    error := none, resultUrl := none, elapsedSeconds := none, stage := none,
    startTime := some 1, retryCount := 1, isRetrying := true,
    pollingFailureCount := 4 }

/-- A state in which a locally-failed job (five transport failures, retry
queued) is afterwards reported `completed` by the server — its id was never
removed from the polled set — and the queued auto-retry `create()` then
fails. -/
def c9state : HookState :=
  reloadJobFailure "g" true (pollSuccess [("j1", completedInfo)] (fixJobs 5))

/-- The record tracked in `c9state`: a `failed` status next to a stale
non-null `resultUrl`. -/
def c9job : GraphJob :=
  { jobId := "j1", graphName := "g", status := .failed, progress := 0,
    error := some "接続エラー", resultUrl := some "/modes-sensing/api/graph/job/j1/result",
    elapsedSeconds := some 3, stage := none, startTime := some 0,
    retryCount := 0, isRetrying := false, pollingFailureCount := 0 }

/-! ### Association-list lemmas -/

theorem getKey_setKey_self (m : List (String × GraphJob)) (k : String) (v : GraphJob) :
    getKey (setKey m k v) k = some v := by
  induction m with
  | nil => simp [setKey, getKey]
  | cons hd tl ih =>
      obtain ⟨k', v'⟩ := hd
      by_cases h : k' = k
      · simp [setKey, getKey, h]
      · simp [setKey, getKey, h, ih]

theorem getKey_setKey_ne (m : List (String × GraphJob)) (k k' : String) (v : GraphJob)
    (h : k ≠ k') : getKey (setKey m k v) k' = getKey m k' := by
  induction m with
  | nil => simp [setKey, getKey, h]
  | cons hd tl ih =>
      obtain ⟨k₀, v₀⟩ := hd
      by_cases h₀ : k₀ = k
      · subst h₀; simp [setKey, getKey, h]
      · simp [setKey, getKey, h₀, ih]

theorem mem_of_getKey {m : List (String × GraphJob)} {k : String} {v : GraphJob}
    (h : getKey m k = some v) : (k, v) ∈ m := by
  induction m with
  | nil => simp [getKey] at h
  | cons hd tl ih =>
      obtain ⟨k₀, v₀⟩ := hd
      by_cases h₀ : k₀ = k
      · subst h₀
        simp [getKey] at h
        simp [h]
      · simp [getKey, h₀] at h
        exact List.mem_cons_of_mem _ (ih h)

theorem getKey_isSome_of_mem {m : List (String × GraphJob)} {k : String} {v : GraphJob}
    (h : (k, v) ∈ m) : (getKey m k).isSome := by
  induction m with
  | nil => simp at h
  | cons hd tl ih =>
      obtain ⟨k₀, v₀⟩ := hd
      by_cases h₀ : k₀ = k
      · simp [getKey, h₀]
      · rcases List.mem_cons.mp h with h₁ | h₁
        · cases h₁; simp at h₀
        · simpa [getKey, h₀] using ih h₁

theorem getKey_eq_of_mem_nodup {m : List (String × GraphJob)} {k : String} {v : GraphJob}
    (hnd : (m.map Prod.fst).Nodup) (h : (k, v) ∈ m) : getKey m k = some v := by
  induction m with
  | nil => simp at h
  | cons hd tl ih =>
      obtain ⟨k₀, v₀⟩ := hd
      simp only [List.map_cons, List.nodup_cons] at hnd
      rcases List.mem_cons.mp h with h₁ | h₁
      · cases h₁; simp [getKey]
      · have hk : k₀ ≠ k := by
          intro hEq
          exact hnd.1 (by simpa [hEq] using List.mem_map_of_mem Prod.fst h₁)
        simpa [getKey, hk] using ih hnd.2 h₁

theorem keys_setKey {m : List (String × GraphJob)} {k : String} (v : GraphJob)
    (h : (getKey m k).isSome) : (setKey m k v).map Prod.fst = m.map Prod.fst := by
  induction m with
  | nil => simp [getKey] at h
  | cons hd tl ih =>
      obtain ⟨k₀, v₀⟩ := hd
      by_cases h₀ : k₀ = k
      · subst h₀; simp [setKey]
      · simp only [getKey, h₀, if_false] at h
        simp [setKey, h₀, ih h]

theorem setKey_of_absent {m : List (String × GraphJob)} {k : String} (v : GraphJob)
    (h : ∀ p ∈ m, p.1 ≠ k) : setKey m k v = m ++ [(k, v)] := by
  induction m with
  | nil => simp [setKey]
  | cons hd tl ih =>
      obtain ⟨k₀, v₀⟩ := hd
      have hk₀ : k₀ ≠ k := h (k₀, v₀) (List.mem_cons_self _ _)
      simp [setKey, hk₀, ih (fun p hp => h p (List.mem_cons_of_mem _ hp))]

theorem keys_setKey_nodup {m : List (String × GraphJob)} {k : String} {v : GraphJob}
    (hnd : (m.map Prod.fst).Nodup) : ((setKey m k v).map Prod.fst).Nodup := by
  by_cases h : (getKey m k).isSome
  · rw [keys_setKey v h]; exact hnd
  · have habs : ∀ p ∈ m, p.1 ≠ k := by
      intro p hp hEq
      exact h (getKey_isSome_of_mem (show (k, p.2) ∈ m by cases p; cases hEq; exact hp))
    rw [setKey_of_absent v habs]
    simp only [List.map_append, List.map_cons, List.map_nil]
    refine List.Nodup.append hnd (List.nodup_singleton k) ?_
    intro x hx hx'
    simp only [List.mem_singleton] at hx'
    subst hx'
    rcases List.mem_map.mp hx with ⟨p, hp, hfst⟩
    exact habs p hp hfst

theorem mem_setKey_aux {m : List (String × GraphJob)} {k : String} {v : GraphJob}
    {p : String × GraphJob} (h : p ∈ setKey m k v) : p = (k, v) ∨ p ∈ m := by
  induction m with
  | nil => simpa [setKey] using h
  | cons hd tl ih =>
      obtain ⟨k₀, v₀⟩ := hd
      by_cases h₀ : k₀ = k
      · subst h₀
        rcases List.mem_cons.mp (by simpa [setKey] using h) with h₁ | h₁
        · exact Or.inl h₁
        · exact Or.inr (List.mem_cons_of_mem _ h₁)
      · rcases List.mem_cons.mp (by simpa [setKey, h₀] using h) with h₁ | h₁
        · exact Or.inr (by simp [h₁])
        · rcases ih h₁ with h₂ | h₂
          · exact Or.inl h₂
          · exact Or.inr (List.mem_cons_of_mem _ h₂)

theorem mem_setKey_nodup {m : List (String × GraphJob)} {k : String} {v : GraphJob}
    {p : String × GraphJob} (hnd : (m.map Prod.fst).Nodup) (h : p ∈ setKey m k v) :
    p = (k, v) ∨ (p ∈ m ∧ p.1 ≠ k) := by
  induction m with
  | nil => simp [setKey] at h; exact Or.inl h
  | cons hd tl ih =>
      obtain ⟨k₀, v₀⟩ := hd
      simp only [List.map_cons, List.nodup_cons] at hnd
      by_cases h₀ : k₀ = k
      · subst h₀
        rcases List.mem_cons.mp (by simpa [setKey] using h) with h₁ | h₁
        · exact Or.inl h₁
        · refine Or.inr ⟨List.mem_cons_of_mem _ h₁, ?_⟩
          intro hEq
          exact hnd.1 (hEq ▸ List.mem_map_of_mem Prod.fst h₁)
      · rcases List.mem_cons.mp (by simpa [setKey, h₀] using h) with h₁ | h₁
        · subst h₁; exact Or.inr ⟨List.mem_cons_self _ _, h₀⟩
        · rcases ih hnd.2 h₁ with h₂ | h₂
          · exact Or.inl h₂
          · exact Or.inr ⟨List.mem_cons_of_mem _ h₂.1, h₂.2⟩

theorem getKey_map_value (m : List (String × GraphJob)) (f : GraphJob → GraphJob)
    (k : String) :
    getKey (m.map (fun p => (p.1, f p.2))) k = (getKey m k).map f := by
  induction m with
  | nil => simp [getKey]
  | cons hd tl ih =>
      obtain ⟨k₀, v₀⟩ := hd
      by_cases h₀ : k₀ = k
      · simp [getKey, h₀]
      · simp [getKey, h₀, ih]

theorem map_proj_setKey {γ : Type} {m : List (String × GraphJob)} {k : String}
    {v w : GraphJob} (f : String × GraphJob → γ)
    (hnd : (m.map Prod.fst).Nodup) (hget : getKey m k = some w)
    (hproj : f (k, v) = f (k, w)) : (setKey m k v).map f = m.map f := by
  induction m with
  | nil => simp [getKey] at hget
  | cons hd tl ih =>
      obtain ⟨k₀, v₀⟩ := hd
      simp only [List.map_cons, List.nodup_cons] at hnd
      by_cases h₀ : k₀ = k
      · subst h₀
        simp [getKey] at hget
        subst hget
        simp [setKey, hproj]
      · simp only [getKey, h₀, if_false] at hget
        simp [setKey, h₀, ih hnd.2 hget]

theorem forall_mem_setKey {m : List (String × GraphJob)} {k : String} {v : GraphJob}
    {Q : String × GraphJob → Prop} (hm : ∀ p ∈ m, Q p) (hv : Q (k, v)) :
    ∀ p ∈ setKey m k v, Q p := by
  intro p hp
  rcases mem_setKey_aux hp with h | h
  · exact h ▸ hv
  · exact hm p h

/-! ### Lemmas about the `pollStatus` entry loop -/

theorem pollStep_none {acc : PollAcc} {e : String × BatchJobStatusInfo}
    (h : acc.updated.find? (fun p => p.2.jobId == e.1) = none) : pollStep acc e = acc := by
  unfold pollStep
  rw [h]

theorem pollStep_info (acc : PollAcc) (e : String × BatchJobStatusInfo)
    (hnd : (acc.updated.map Prod.fst).Nodup) :
    (pollStep acc e).updated.map jobKeyInfo = acc.updated.map jobKeyInfo := by
  unfold pollStep
  cases h : acc.updated.find? (fun p => p.2.jobId == e.1) with
  | none => rfl
  | some pr =>
      obtain ⟨g, job⟩ := pr
      have hmem : (g, job) ∈ acc.updated := List.mem_of_find?_eq_some h
      have hget : getKey acc.updated g = some job := getKey_eq_of_mem_nodup hnd hmem
      exact map_proj_setKey jobKeyInfo hnd hget rfl

theorem keys_of_info {l₁ l₂ : List (String × GraphJob)}
    (h : l₁.map jobKeyInfo = l₂.map jobKeyInfo) : l₁.map Prod.fst = l₂.map Prod.fst := by
  have := congrArg (List.map Prod.fst) h
  simpa [List.map_map, Function.comp, jobKeyInfo] using this

theorem jobIds_of_info {l₁ l₂ : List (String × GraphJob)}
    (h : l₁.map jobKeyInfo = l₂.map jobKeyInfo) :
    l₁.map (fun p => p.2.jobId) = l₂.map (fun p => p.2.jobId) := by
  have := congrArg (List.map (fun t : String × String × Nat => t.2.1)) h
  simpa [List.map_map, Function.comp, jobKeyInfo] using this

theorem mem_of_info_eq {l₁ l₂ : List (String × GraphJob)} {g : String} {j : GraphJob}
    (h : l₁.map jobKeyInfo = l₂.map jobKeyInfo) (hmem : (g, j) ∈ l₁) :
    ∃ j', (g, j') ∈ l₂ ∧ j'.jobId = j.jobId ∧ j'.retryCount = j.retryCount := by
  have h₁ : jobKeyInfo (g, j) ∈ l₁.map jobKeyInfo := List.mem_map_of_mem jobKeyInfo hmem
  rw [h] at h₁
  rcases List.mem_map.mp h₁ with ⟨p, hp, hEq⟩
  obtain ⟨g', j'⟩ := p
  simp only [jobKeyInfo, Prod.mk.injEq] at hEq
  exact ⟨j', hEq.1 ▸ hp, hEq.2.1, hEq.2.2⟩

theorem pfold_info (data : List (String × BatchJobStatusInfo)) :
    ∀ acc : PollAcc, (acc.updated.map Prod.fst).Nodup →
      (data.foldl pollStep acc).updated.map jobKeyInfo = acc.updated.map jobKeyInfo := by
  induction data with
  | nil => intro acc _; rfl
  | cons e rest ih =>
      intro acc hnd
      have h1 := pollStep_info acc e hnd
      have hnd' : ((pollStep acc e).updated.map Prod.fst).Nodup := by
        rw [keys_of_info h1]; exact hnd
      calc (List.foldl pollStep (pollStep acc e) rest).updated.map jobKeyInfo
          = (pollStep acc e).updated.map jobKeyInfo := ih _ hnd'
        _ = acc.updated.map jobKeyInfo := h1

theorem pfold_nodup (data : List (String × BatchJobStatusInfo)) (acc : PollAcc)
    (hnd : (acc.updated.map Prod.fst).Nodup) :
    ((data.foldl pollStep acc).updated.map Prod.fst).Nodup := by
  rw [keys_of_info (pfold_info data acc hnd)]; exact hnd

theorem pollStep_retry_sub (acc : PollAcc) (e : String × BatchJobStatusInfo) :
    ∀ g ∈ (pollStep acc e).retryTargets,
      g ∈ acc.retryTargets ∨ ∃ j, (g, j) ∈ acc.updated ∧ j.retryCount = 0 := by
  intro g hg
  unfold pollStep at hg
  cases h : acc.updated.find? (fun p => p.2.jobId == e.1) with
  | none => rw [h] at hg; exact Or.inl hg
  | some pr =>
      rw [h] at hg
      obtain ⟨g', job⟩ := pr
      simp only at hg
      by_cases hc : isFailedStatus e.2.status ∧ job.retryCount = 0
      · rw [if_pos hc] at hg
        rcases List.mem_append.mp hg with h₁ | h₁
        · exact Or.inl h₁
        · simp only [List.mem_singleton] at h₁
          subst h₁
          exact Or.inr ⟨job, List.mem_of_find?_eq_some h, hc.2⟩
      · rw [if_neg hc] at hg
        exact Or.inl hg

theorem pfold_retry_sub (data : List (String × BatchJobStatusInfo)) :
    ∀ acc : PollAcc, (acc.updated.map Prod.fst).Nodup →
      ∀ g ∈ (data.foldl pollStep acc).retryTargets,
        g ∈ acc.retryTargets ∨ ∃ j, (g, j) ∈ acc.updated ∧ j.retryCount = 0 := by
  induction data with
  | nil => intro acc _ g hg; exact Or.inl hg
  | cons e rest ih =>
      intro acc hnd g hg
      have h1 := pollStep_info acc e hnd
      have hnd' : ((pollStep acc e).updated.map Prod.fst).Nodup := by
        rw [keys_of_info h1]; exact hnd
      rcases ih (pollStep acc e) hnd' g hg with h₂ | ⟨j, hj, hrc⟩
      · exact pollStep_retry_sub acc e g h₂
      · rcases mem_of_info_eq h1 hj with ⟨j', hj', _, hrc'⟩
        exact Or.inr ⟨j', hj', by rw [hrc']; exact hrc⟩

theorem pollStep_allCompleted_false {acc : PollAcc} (e : String × BatchJobStatusInfo)
    (h : acc.allCompleted = false) : (pollStep acc e).allCompleted = false := by
  unfold pollStep
  cases hf : acc.updated.find? (fun p => p.2.jobId == e.1) with
  | none => exact h
  | some pr => simp [h]

theorem pfold_allCompleted_false (data : List (String × BatchJobStatusInfo)) :
    ∀ acc : PollAcc, acc.allCompleted = false →
      (data.foldl pollStep acc).allCompleted = false := by
  induction data with
  | nil => intro acc h; exact h
  | cons e rest ih =>
      intro acc h
      exact ih _ (pollStep_allCompleted_false e h)

theorem pollStep_allCompleted_terminal {acc : PollAcc} {e : String × BatchJobStatusInfo}
    (h : isTerminalStatus e.2.status = true) :
    (pollStep acc e).allCompleted = acc.allCompleted := by
  unfold pollStep
  cases hf : acc.updated.find? (fun p => p.2.jobId == e.1) with
  | none => rfl
  | some pr => simp [h]

theorem pfold_allCompleted_terminal (data : List (String × BatchJobStatusInfo)) :
    ∀ acc : PollAcc, (∀ e ∈ data, isTerminalStatus e.2.status = true) →
      (data.foldl pollStep acc).allCompleted = acc.allCompleted := by
  induction data with
  | nil => intro acc _; rfl
  | cons e rest ih =>
      intro acc h
      rw [List.foldl_cons,
        ih _ (fun e' he' => h e' (List.mem_cons_of_mem _ he')),
        pollStep_allCompleted_terminal (h e (List.mem_cons_self _ _))]

theorem pollStep_completed_mono {acc : PollAcc} {e : String × BatchJobStatusInfo}
    {id : String} (h : id ∈ acc.completedJobIds) :
    id ∈ (pollStep acc e).completedJobIds := by
  unfold pollStep
  cases hf : acc.updated.find? (fun p => p.2.jobId == e.1) with
  | none => exact h
  | some pr =>
      by_cases ht : isTerminalStatus e.2.status = true
      · simp only [ht, if_true]
        exact List.mem_append.mpr (Or.inl h)
      · simp only [ht, if_false]
        exact h

theorem pfold_completed_mono (data : List (String × BatchJobStatusInfo)) :
    ∀ acc : PollAcc, ∀ id ∈ acc.completedJobIds,
      id ∈ (data.foldl pollStep acc).completedJobIds := by
  induction data with
  | nil => intro acc id h; exact h
  | cons e rest ih =>
      intro acc id h
      exact ih _ id (pollStep_completed_mono h)

theorem pfold_completed_of_entry (data : List (String × BatchJobStatusInfo)) :
    ∀ acc : PollAcc, (acc.updated.map Prod.fst).Nodup →
      ∀ jid st, (jid, st) ∈ data → isTerminalStatus st.status = true →
        (∃ p ∈ acc.updated, p.2.jobId = jid) →
        jid ∈ (data.foldl pollStep acc).completedJobIds := by
  induction data with
  | nil => intro acc _ jid st h; simp at h
  | cons e rest ih =>
      intro acc hnd jid st hmem ht hex
      have h1 := pollStep_info acc e hnd
      have hnd' : ((pollStep acc e).updated.map Prod.fst).Nodup := by
        rw [keys_of_info h1]; exact hnd
      rcases List.mem_cons.mp hmem with hhd | htl
      · subst hhd
        rcases hex with ⟨p, hp, hpid⟩
        have hfind : (acc.updated.find? (fun q => q.2.jobId == jid)).isSome := by
          rw [List.find?_isSome]
          exact ⟨p, hp, by simp [hpid]⟩
        rw [List.foldl_cons]
        cases hf : acc.updated.find? (fun q => q.2.jobId == jid) with
        | none => rw [hf] at hfind; simp at hfind
        | some pr =>
            refine pfold_completed_mono rest _ jid ?_
            unfold pollStep
            simp only
            rw [hf, if_pos ht]
            exact List.mem_append.mpr (Or.inr (List.mem_singleton.mpr rfl))
      · rcases hex with ⟨p, hp, hpid⟩
        obtain ⟨g, j⟩ := p
        rcases mem_of_info_eq h1.symm hp with ⟨j', hj', hid', _⟩
        exact ih _ hnd' jid st htl ht ⟨(g, j'), hj', by rw [hid']; exact hpid⟩

theorem pfold_allCompleted_nonterminal (data : List (String × BatchJobStatusInfo)) :
    ∀ acc : PollAcc, (acc.updated.map Prod.fst).Nodup →
      ∀ jid st, (jid, st) ∈ data → isTerminalStatus st.status = false →
        (∃ p ∈ acc.updated, p.2.jobId = jid) →
        (data.foldl pollStep acc).allCompleted = false := by
  induction data with
  | nil => intro acc _ jid st h; simp at h
  | cons e rest ih =>
      intro acc hnd jid st hmem ht hex
      have h1 := pollStep_info acc e hnd
      have hnd' : ((pollStep acc e).updated.map Prod.fst).Nodup := by
        rw [keys_of_info h1]; exact hnd
      rcases List.mem_cons.mp hmem with hhd | htl
      · subst hhd
        rcases hex with ⟨p, hp, hpid⟩
        rw [List.foldl_cons]
        refine pfold_allCompleted_false rest _ ?_
        cases hf : acc.updated.find? (fun q => q.2.jobId == jid) with
        | none =>
            exfalso
            rw [List.find?_eq_none] at hf
            exact hf p hp (by simp [hpid])
        | some pr =>
            unfold pollStep
            simp only
            rw [hf, ht]
            simp
      · rcases hex with ⟨p, hp, hpid⟩
        obtain ⟨g, j⟩ := p
        rcases mem_of_info_eq h1.symm hp with ⟨j', hj', hid', _⟩
        exact ih _ hnd' jid st htl ht ⟨(g, j'), hj', by rw [hid']; exact hpid⟩

theorem pollStep_avoid {acc : PollAcc} {e : String × BatchJobStatusInfo} {g : String}
    {job : GraphJob} (hnd : (acc.updated.map Prod.fst).Nodup)
    (hget : getKey acc.updated g = some job) (hne : e.1 ≠ job.jobId) :
    getKey (pollStep acc e).updated g = some job ∧
      ((g ∈ (pollStep acc e).retryTargets) ↔ g ∈ acc.retryTargets) := by
  unfold pollStep
  cases hf : acc.updated.find? (fun p => p.2.jobId == e.1) with
  | none => exact ⟨hget, Iff.rfl⟩
  | some pr =>
      obtain ⟨g', j'⟩ := pr
      have hmem : (g', j') ∈ acc.updated := List.mem_of_find?_eq_some hf
      have hjid : j'.jobId = e.1 := by
        have := List.find?_some hf
        simpa using this
      have hgne : g' ≠ g := by
        intro hEq
        subst hEq
        have := getKey_eq_of_mem_nodup hnd hmem
        rw [hget] at this
        cases this
        exact hne hjid.symm
      constructor
      · simpa using (getKey_setKey_ne acc.updated g' g _ hgne).trans hget
      · simp only
        by_cases hc : isFailedStatus e.2.status ∧ j'.retryCount = 0
        · rw [if_pos hc]
          constructor
          · intro h
            rcases List.mem_append.mp h with h₁ | h₁
            · exact h₁
            · simp only [List.mem_singleton] at h₁
              exact absurd h₁.symm hgne
          · intro h
            exact List.mem_append.mpr (Or.inl h)
        · rw [if_neg hc]

theorem pfold_avoid (data : List (String × BatchJobStatusInfo)) :
    ∀ acc : PollAcc, ∀ g : String, ∀ job : GraphJob,
      (acc.updated.map Prod.fst).Nodup →
      getKey acc.updated g = some job → (∀ e ∈ data, e.1 ≠ job.jobId) →
      getKey (data.foldl pollStep acc).updated g = some job ∧
        ((g ∈ (data.foldl pollStep acc).retryTargets) ↔ g ∈ acc.retryTargets) := by
  induction data with
  | nil => intro acc g job _ hget _; exact ⟨hget, Iff.rfl⟩
  | cons e rest ih =>
      intro acc g job hnd hget hne
      have h1 := pollStep_info acc e hnd
      have hnd' : ((pollStep acc e).updated.map Prod.fst).Nodup := by
        rw [keys_of_info h1]; exact hnd
      have hstep := pollStep_avoid hnd hget (hne e (List.mem_cons_self _ _))
      have hrest := ih (pollStep acc e) g job hnd' hstep.1
        (fun e' he' => hne e' (List.mem_cons_of_mem _ he'))
      exact ⟨hrest.1, hrest.2.trans hstep.2⟩

theorem find_jobId_nodup {l : List (String × GraphJob)} {g jid : String} {job : GraphJob}
    (hnd : (l.map (fun p => p.2.jobId)).Nodup) (hmem : (g, job) ∈ l)
    (hjid : job.jobId = jid) :
    l.find? (fun p => p.2.jobId == jid) = some (g, job) := by
  have hs : (l.find? (fun p => p.2.jobId == jid)).isSome := by
    rw [List.find?_isSome]
    exact ⟨(g, job), hmem, by simp [hjid]⟩
  cases hf : l.find? (fun p => p.2.jobId == jid) with
  | none => rw [hf] at hs; simp at hs
  | some pr =>
      have hmem' : pr ∈ l := List.mem_of_find?_eq_some hf
      have hjid' : pr.2.jobId = jid := by
        have := List.find?_some hf
        simpa using this
      have : pr = (g, job) :=
        List.inj_on_of_nodup_map hnd hmem' hmem (by simp [hjid, hjid'])
      rw [this]

theorem pfold_no_new_retry (data : List (String × BatchJobStatusInfo)) :
    ∀ acc : PollAcc, (acc.updated.map Prod.fst).Nodup →
      (∀ e ∈ data, isFailedStatus e.2.status = true →
        ∀ p ∈ acc.updated, p.2.jobId = e.1 → p.2.retryCount ≠ 0) →
      (data.foldl pollStep acc).retryTargets = acc.retryTargets := by
  induction data with
  | nil => intro acc _ _; rfl
  | cons e rest ih =>
      intro acc hnd hno
      have h1 := pollStep_info acc e hnd
      have hnd' : ((pollStep acc e).updated.map Prod.fst).Nodup := by
        rw [keys_of_info h1]; exact hnd
      have hstep : (pollStep acc e).retryTargets = acc.retryTargets := by
        unfold pollStep
        cases hf : acc.updated.find? (fun p => p.2.jobId == e.1) with
        | none => rfl
        | some pr =>
            obtain ⟨g', j'⟩ := pr
            have hmem : (g', j') ∈ acc.updated := List.mem_of_find?_eq_some hf
            have hjid : j'.jobId = e.1 := by
              have := List.find?_some hf
              simpa using this
            simp only
            rw [if_neg]
            rintro ⟨hfl, hrc⟩
            exact hno e (List.mem_cons_self _ _) hfl (g', j') hmem hjid hrc
      rw [List.foldl_cons]
      rw [ih (pollStep acc e) hnd' ?_, hstep]
      intro e' he' hfl p hp hpid
      obtain ⟨g', j'⟩ := p
      rcases mem_of_info_eq h1 hp with ⟨j₀, hj₀, hid₀, hrc₀⟩
      have := hno e' (List.mem_cons_of_mem _ he') hfl (g', j₀) hj₀ (by rw [hid₀]; exact hpid)
      simpa [hrc₀] using this

theorem mem_appendIf {a : String} {base l : List String} :
    (a ∈ if l.isEmpty then base else base ++ l) ↔ a ∈ base ∨ a ∈ l := by
  cases l with
  | nil => simp
  | cons x xs => simp [List.mem_append]

theorem count_appendIf (a : String) (base l : List String) :
    List.count a (if l.isEmpty then base else base ++ l) =
      List.count a base + List.count a l := by
  cases l with
  | nil => simp
  | cons x xs => simp [List.count_append]

/-! ### Lemmas about `handlePollingFailure` -/

theorem mem_failRetryTargets {l : List (String × GraphJob)} {g : String}
    (h : g ∈ failRetryTargets l) :
    ∃ j, (g, j) ∈ l ∧ (j.status = .pending ∨ j.status = .processing) ∧
      POLLING_FAILURE_THRESHOLD ≤ j.pollingFailureCount + 1 ∧ j.retryCount = 0 := by
  rcases List.mem_filterMap.mp h with ⟨p, hp, hsome⟩
  by_cases hc : (p.2.status = .pending ∨ p.2.status = .processing) ∧
      POLLING_FAILURE_THRESHOLD ≤ p.2.pollingFailureCount + 1 ∧ p.2.retryCount = 0
  · rw [if_pos hc] at hsome
    cases hsome
    exact ⟨p.2, by simpa using hp, hc.1, hc.2.1, hc.2.2⟩
  · rw [if_neg hc] at hsome
    cases hsome

theorem failRetryTargets_sub_keys {l : List (String × GraphJob)} {g : String}
    (h : g ∈ failRetryTargets l) : g ∈ l.map Prod.fst := by
  rcases mem_failRetryTargets h with ⟨j, hj, _⟩
  exact List.mem_map.mpr ⟨(g, j), hj, rfl⟩

theorem failRetryTargets_cons (k : String) (v : GraphJob)
    (tl : List (String × GraphJob)) :
    failRetryTargets ((k, v) :: tl) =
      (if (v.status = .pending ∨ v.status = .processing) ∧
          POLLING_FAILURE_THRESHOLD ≤ v.pollingFailureCount + 1 ∧ v.retryCount = 0
        then [k] else []) ++ failRetryTargets tl := by
  by_cases hc : (v.status = .pending ∨ v.status = .processing) ∧
      POLLING_FAILURE_THRESHOLD ≤ v.pollingFailureCount + 1 ∧ v.retryCount = 0
  · simp [failRetryTargets, List.filterMap_cons, hc]
  · simp [failRetryTargets, List.filterMap_cons, hc]

theorem count_failRetryTargets {l : List (String × GraphJob)} {g : String} {job : GraphJob}
    (hnd : (l.map Prod.fst).Nodup) (hget : getKey l g = some job) :
    List.count g (failRetryTargets l) =
      if (job.status = .pending ∨ job.status = .processing) ∧
          POLLING_FAILURE_THRESHOLD ≤ job.pollingFailureCount + 1 ∧ job.retryCount = 0
        then 1 else 0 := by
  induction l with
  | nil => simp [getKey] at hget
  | cons hd tl ih =>
      obtain ⟨k₀, v₀⟩ := hd
      simp only [List.map_cons, List.nodup_cons] at hnd
      rw [failRetryTargets_cons, List.count_append]
      by_cases h₀ : k₀ = g
      · have hv : v₀ = job := by simpa [getKey, h₀] using hget
        subst hv
        have htl : List.count g (failRetryTargets tl) = 0 := by
          refine List.count_eq_zero.mpr ?_
          intro hmem
          exact (h₀ ▸ hnd.1) (failRetryTargets_sub_keys hmem)
        rw [htl]
        by_cases hc : (v₀.status = .pending ∨ v₀.status = .processing) ∧
            POLLING_FAILURE_THRESHOLD ≤ v₀.pollingFailureCount + 1 ∧ v₀.retryCount = 0
        · simp [hc, h₀]
        · simp [hc]
      · have hget' : getKey tl g = some job := by simpa [getKey, h₀] using hget
        rw [ih hnd.2 hget']
        by_cases hc : (v₀.status = .pending ∨ v₀.status = .processing) ∧
            POLLING_FAILURE_THRESHOLD ≤ v₀.pollingFailureCount + 1 ∧ v₀.retryCount = 0
        · simp [hc, List.count_singleton, h₀]
        · simp [hc]

/-! ### The key-uniqueness invariant of the jobs record -/

theorem keysNodup_foldl_setKey (data : List JobInfo) (now : Int) :
    ∀ m : List (String × GraphJob), (m.map Prod.fst).Nodup →
      ((data.foldl (fun m j => setKey m j.graph_name (initialJob j now)) m).map
        Prod.fst).Nodup := by
  induction data with
  | nil => intro m hm; exact hm
  | cons j rest ih =>
      intro m hm
      exact ih _ (keys_setKey_nodup hm)

theorem keys_map_value (m : List (String × GraphJob)) (f : GraphJob → GraphJob) :
    (m.map (fun p => (p.1, f p.2))).map Prod.fst = m.map Prod.fst := by
  simp [List.map_map, Function.comp]

theorem jobs_reloadJobSuccess (g : String) (isAutoRetry : Bool) (newJobId : String)
    (now : Int) (s : HookState) :
    ∃ v, (reloadJobSuccess g isAutoRetry newJobId now s).jobs =
        setKey (if isAutoRetry then (preRetrySet g s).jobs else s.jobs) g v ∧
      v.status = .pending ∧ v.resultUrl = none := by
  exact ⟨_, by
    unfold reloadJobSuccess
    simp only [apply_ite HookState.jobs, ite_self]
    rfl, rfl, rfl⟩

theorem jobs_reloadJobFailure (g : String) (isAutoRetry : Bool) (s : HookState) :
    (reloadJobFailure g isAutoRetry s).jobs =
        (if isAutoRetry then (preRetrySet g s).jobs else s.jobs) ∨
      ∃ v, (reloadJobFailure g isAutoRetry s).jobs =
        setKey (if isAutoRetry then (preRetrySet g s).jobs else s.jobs) g v := by
  cases isAutoRetry with
  | false => exact Or.inl rfl
  | true =>
      cases hg : getKey (preRetrySet g s).jobs g with
      | none =>
          left
          unfold reloadJobFailure
          simp [hg]
      | some j =>
          right
          exact ⟨_, by
            unfold reloadJobFailure
            simp [hg]
            rfl⟩

theorem keysNodup_step {s s' : HookState} (h : Step s s') (hnd : KeysNodup s) :
    KeysNodup s' := by
  unfold KeysNodup at hnd ⊢
  cases h with
  | createOk data now s =>
      exact keysNodup_foldl_setKey data now [] (by simp)
  | pollOk data s =>
      unfold pollSuccess
      by_cases hIds : s.jobIds.isEmpty
      · rw [if_pos hIds]; exact hnd
      · rw [if_neg hIds]
        exact pfold_nodup data _ hnd
  | pollFail msg s =>
      unfold pollFailure
      by_cases hIds : s.jobIds.isEmpty
      · rw [if_pos hIds]; exact hnd
      · rw [if_neg hIds]
        unfold handlePollingFailure
        simp only
        rw [keys_map_value]
        exact hnd
  | reloadOk g isAutoRetry newJobId now s =>
      have hnd1 : (((if isAutoRetry then (preRetrySet g s).jobs else s.jobs).map
          Prod.fst)).Nodup := by
        cases isAutoRetry with
        | false => exact hnd
        | true =>
            simp only [if_pos rfl]
            unfold preRetrySet
            cases hg : getKey s.jobs g with
            | none => exact hnd
            | some j => exact keys_setKey_nodup hnd
      obtain ⟨v, hv, -, -⟩ := jobs_reloadJobSuccess g isAutoRetry newJobId now s
      rw [hv]
      exact keys_setKey_nodup hnd1
  | reloadFail g isAutoRetry s =>
      have hnd1 : (((if isAutoRetry then (preRetrySet g s).jobs else s.jobs).map
          Prod.fst)).Nodup := by
        cases isAutoRetry with
        | false => exact hnd
        | true =>
            simp only [if_pos rfl]
            unfold preRetrySet
            cases hg : getKey s.jobs g with
            | none => exact hnd
            | some j => exact keys_setKey_nodup hnd
      rcases jobs_reloadJobFailure g isAutoRetry s with hv | ⟨v, hv⟩
      · rw [hv]; exact hnd1
      · rw [hv]; exact keys_setKey_nodup hnd1
  | drain s =>
      unfold autoRetryDrain
      by_cases hp : s.pendingRetries.isEmpty
      · rw [if_pos hp]; exact hnd
      · rw [if_neg hp]; exact hnd

theorem reachable_keysNodup {s : HookState} (h : Reachable s) : KeysNodup s := by
  induction h with
  | refl => simp [KeysNodup, initState]
  | tail hsteps hstep ih => exact keysNodup_step hstep ih

/-! ### Frame lemmas for `pendingRetriesRef` -/

theorem pendingRetries_preRetrySet (g : String) (s : HookState) :
    (preRetrySet g s).pendingRetries = s.pendingRetries := by
  unfold preRetrySet
  cases hg : getKey s.jobs g <;> rfl

theorem pendingRetries_reloadJobSuccess (g : String) (isAutoRetry : Bool)
    (newJobId : String) (now : Int) (s : HookState) :
    (reloadJobSuccess g isAutoRetry newJobId now s).pendingRetries = s.pendingRetries := by
  unfold reloadJobSuccess
  simp only [apply_ite HookState.pendingRetries, apply_ite HookState.jobs,
    pendingRetries_preRetrySet, ite_self]

theorem pendingRetries_reloadJobFailure (g : String) (isAutoRetry : Bool)
    (s : HookState) :
    (reloadJobFailure g isAutoRetry s).pendingRetries = s.pendingRetries := by
  unfold reloadJobFailure
  cases isAutoRetry with
  | false => rfl
  | true =>
      cases hg : getKey (preRetrySet g s).jobs g with
      | none => simp [hg, pendingRetries_preRetrySet]
      | some j => simp [hg, pendingRetries_preRetrySet]

/-- C2: a graph name enters the pending-retry set only for a job whose
`retryCount` is `0`: on every transition of the `useGraphJobs` state
machine from a reachable state, any graph present in the post-state's
pending-retry set was either already queued or has a tracked job record
with `retryCount = 0` in the pre-state; a job already retried once
(`retryCount ≥ 1`) never triggers a further automatic replacement on any
transport failure. -/
theorem C2_bounded_retry (s s' : HookState) (hreach : Reachable s) (hstep : Step s s')
    (g : String) (hmem : g ∈ s'.pendingRetries) :
    g ∈ s.pendingRetries ∨ ∃ j, (g, j) ∈ s.jobs ∧ j.retryCount = 0 := by
  have hnd : KeysNodup s := reachable_keysNodup hreach
  cases hstep with
  | createOk data now s => exact Or.inl hmem
  | pollOk data s =>
      unfold pollSuccess at hmem
      by_cases hIds : s.jobIds.isEmpty
      · rw [if_pos hIds] at hmem; exact Or.inl hmem
      · rw [if_neg hIds] at hmem
        unfold applyPollResponse at hmem
        simp only at hmem
        rcases mem_appendIf.mp hmem with h₁ | h₁
        · exact Or.inl h₁
        · rcases pfold_retry_sub data (pollInit s) hnd g h₁ with h₂ | h₂
          · simp [pollInit] at h₂
          · exact Or.inr h₂
  | pollFail msg s =>
      unfold pollFailure at hmem
      by_cases hIds : s.jobIds.isEmpty
      · rw [if_pos hIds] at hmem; exact Or.inl hmem
      · rw [if_neg hIds] at hmem
        unfold handlePollingFailure at hmem
        simp only at hmem
        rcases mem_appendIf.mp hmem with h₁ | h₁
        · exact Or.inl h₁
        · rcases mem_failRetryTargets h₁ with ⟨j, hj, _, _, hrc⟩
          exact Or.inr ⟨j, hj, hrc⟩
  | reloadOk g' isAutoRetry newJobId now s =>
      rw [pendingRetries_reloadJobSuccess] at hmem
      exact Or.inl hmem
  | reloadFail g' isAutoRetry s =>
      rw [pendingRetries_reloadJobFailure] at hmem
      exact Or.inl hmem
  | drain s =>
      unfold autoRetryDrain at hmem
      by_cases hp : s.pendingRetries.isEmpty
      · rw [if_pos hp] at hmem; exact Or.inl hmem
      · rw [if_neg hp] at hmem
        simp at hmem

/-! ### Lemmas for the transport-failure threshold behaviour -/

theorem failJobUpdate_count {job : GraphJob} (msg : String)
    (hact : job.status = .pending ∨ job.status = .processing) :
    (failJobUpdate msg job).pollingFailureCount = job.pollingFailureCount + 1 := by
  unfold failJobUpdate
  rw [if_pos hact]
  split <;> rfl

theorem failJobUpdate_retryCount (msg : String) (job : GraphJob) :
    (failJobUpdate msg job).retryCount = job.retryCount := by
  unfold failJobUpdate
  split
  · split <;> rfl
  · rfl

theorem failJobUpdate_below {job : GraphJob} (msg : String)
    (hact : job.status = .pending ∨ job.status = .processing)
    (hlt : job.pollingFailureCount + 1 < POLLING_FAILURE_THRESHOLD) :
    failJobUpdate msg job = { job with pollingFailureCount := job.pollingFailureCount + 1 } := by
  unfold failJobUpdate
  rw [if_pos hact, if_neg]
  rintro ⟨h5, -⟩
  omega

theorem failJobUpdate_at {job : GraphJob} (msg : String)
    (hact : job.status = .pending ∨ job.status = .processing)
    (hretry : job.retryCount = 0)
    (hge : POLLING_FAILURE_THRESHOLD ≤ job.pollingFailureCount + 1) :
    failJobUpdate msg job =
      { job with pollingFailureCount := job.pollingFailureCount + 1, status := .failed, error := some msg } := by
  unfold failJobUpdate
  rw [if_pos hact, if_pos ⟨hge, hretry⟩]

theorem getKey_handlePollingFailure (msg : String) (s : HookState) (g : String) :
    getKey (handlePollingFailure msg s).jobs g =
      (getKey s.jobs g).map (failJobUpdate msg) := by
  unfold handlePollingFailure
  exact getKey_map_value s.jobs (failJobUpdate msg) g

theorem count_pendingRetries_handle {s : HookState} {g : String} {job : GraphJob}
    (msg : String) (hnd : KeysNodup s) (hget : getKey s.jobs g = some job) :
    List.count g (handlePollingFailure msg s).pendingRetries =
      List.count g s.pendingRetries +
        (if (job.status = .pending ∨ job.status = .processing) ∧
            POLLING_FAILURE_THRESHOLD ≤ job.pollingFailureCount + 1 ∧ job.retryCount = 0
          then 1 else 0) := by
  unfold handlePollingFailure
  simp only
  rw [count_appendIf, count_failRetryTargets hnd hget]

theorem getKey_preRetrySet {g : String} {s : HookState} {j : GraphJob}
    (hget : getKey s.jobs g = some j) :
    (preRetrySet g s).jobs = setKey s.jobs g (preJob j) := by
  unfold preRetrySet
  rw [hget]

theorem getKey_reloadJobSuccess_auto (g newJobId : String) (now : Int) (s : HookState)
    {j : GraphJob} (hget : getKey s.jobs g = some j) :
    getKey (reloadJobSuccess g true newJobId now s).jobs g = some
      { jobId := newJobId, graphName := g, status := .pending, progress := 0,
        error := none, resultUrl := none, elapsedSeconds := none, stage := none,
        startTime := some now, retryCount := j.retryCount + 1, isRetrying := true,
        pollingFailureCount := 0 } := by
  have hgetpre : getKey (preRetrySet g s).jobs g = some
      ({ j with isRetrying := true, status := .pending, progress := 0, error := none }) := by
    rw [getKey_preRetrySet hget]
    exact getKey_setKey_self _ _ _
  have h1 : (reloadJobSuccess g true newJobId now s).jobs =
      setKey (preRetrySet g s).jobs g
        { jobId := newJobId, graphName := g, status := .pending, progress := 0,
          error := none, resultUrl := none, elapsedSeconds := none, stage := none,
          startTime := some now,
          retryCount := (match getKey (preRetrySet g s).jobs g with
            | some j => j.retryCount
            | none => 0) + 1,
          isRetrying := true, pollingFailureCount := 0 } := by
    unfold reloadJobSuccess
    simp only [apply_ite HookState.jobs, ite_self]
    rfl
  rw [h1, getKey_setKey_self, hgetpre]

theorem drain_calls {s : HookState} (h : ¬ s.pendingRetries.isEmpty) :
    (autoRetryDrain s).1 = s.pendingRetries := by
  unfold autoRetryDrain
  rw [if_neg h]

/-- C1: for a pending/processing job with `retryCount = 0`, every
unsuccessful `batchStatus` call (`handlePollingFailure`) increments its
transport-failure counter by exactly one; while the new counter is below
the threshold of 5 the status and error are untouched and nothing is
queued for retry; the call that brings the counter to exactly 5 flips the
job to `failed` with the transport error message, queues exactly one
replacement `create()` for that graph (which the auto-retry drain issues),
and the replacement record is marked retrying with `retryCount = 1` and a
failure counter reset to 0. -/
theorem C1_transport_failure_threshold (s : HookState) (msg : String) (g : String)
    (job : GraphJob) (hnd : KeysNodup s)
    (hget : getKey s.jobs g = some job)
    (hact : job.status = .pending ∨ job.status = .processing)
    (hretry : job.retryCount = 0) :
    ∃ job', getKey (handlePollingFailure msg s).jobs g = some job' ∧
      job'.pollingFailureCount = job.pollingFailureCount + 1 ∧
      (job.pollingFailureCount + 1 < POLLING_FAILURE_THRESHOLD →
        job'.status = job.status ∧ job'.error = job.error ∧
        List.count g (handlePollingFailure msg s).pendingRetries
          = List.count g s.pendingRetries) ∧
      (job.pollingFailureCount + 1 = POLLING_FAILURE_THRESHOLD →
        job'.status = .failed ∧ job'.error = some msg ∧
        List.count g (handlePollingFailure msg s).pendingRetries
          = List.count g s.pendingRetries + 1 ∧
        List.count g (autoRetryDrain (handlePollingFailure msg s)).1
          = List.count g s.pendingRetries + 1 ∧
        ∀ newJobId now, ∃ rec,
          getKey (reloadJobSuccess g true newJobId now
            (handlePollingFailure msg s)).jobs g = some rec ∧
          rec.jobId = newJobId ∧ rec.status = .pending ∧ rec.isRetrying = true ∧
          rec.retryCount = 1 ∧ rec.pollingFailureCount = 0) := by
  refine ⟨failJobUpdate msg job, ?_, failJobUpdate_count msg hact, ?_, ?_⟩
  · rw [getKey_handlePollingFailure, hget]
    rfl
  · intro hlt
    rw [failJobUpdate_below msg hact hlt]
    refine ⟨rfl, rfl, ?_⟩
    rw [count_pendingRetries_handle msg hnd hget, if_neg]
    · omega
    · rintro ⟨-, h5, -⟩
      omega
  · intro heq
    have hge : POLLING_FAILURE_THRESHOLD ≤ job.pollingFailureCount + 1 := le_of_eq heq.symm
    have hcount : List.count g (handlePollingFailure msg s).pendingRetries
        = List.count g s.pendingRetries + 1 := by
      rw [count_pendingRetries_handle msg hnd hget, if_pos ⟨hact, hge, hretry⟩]
    have hnonempty : ¬ (handlePollingFailure msg s).pendingRetries.isEmpty := by
      intro hemp
      have : (handlePollingFailure msg s).pendingRetries = [] :=
        List.isEmpty_iff.mp hemp
      rw [this] at hcount
      simp at hcount
    rw [failJobUpdate_at msg hact hretry hge]
    refine ⟨rfl, rfl, hcount, ?_, ?_⟩
    · rw [drain_calls hnonempty]
      exact hcount
    · intro newJobId now
      have hget' : getKey (handlePollingFailure msg s).jobs g
          = some (failJobUpdate msg job) := by
        rw [getKey_handlePollingFailure, hget]; rfl
      refine ⟨_, getKey_reloadJobSuccess_auto g newJobId now _ hget', rfl, rfl, rfl, ?_, rfl⟩
      rw [failJobUpdate_retryCount, hretry]

/-- Witness for C1: the concrete single-graph state after four consecutive
transport failures, hit by a fifth. -/
theorem C1_witness :
    ∃ job', getKey (handlePollingFailure "boom" (fixJobs 4)).jobs "g" = some job' ∧
      job'.pollingFailureCount = w1job.pollingFailureCount + 1 ∧
      (w1job.pollingFailureCount + 1 < POLLING_FAILURE_THRESHOLD →
        job'.status = w1job.status ∧ job'.error = w1job.error ∧
        List.count "g" (handlePollingFailure "boom" (fixJobs 4)).pendingRetries
          = List.count "g" (fixJobs 4).pendingRetries) ∧
      (w1job.pollingFailureCount + 1 = POLLING_FAILURE_THRESHOLD →
        job'.status = .failed ∧ job'.error = some "boom" ∧
        List.count "g" (handlePollingFailure "boom" (fixJobs 4)).pendingRetries
          = List.count "g" (fixJobs 4).pendingRetries + 1 ∧
        List.count "g" (autoRetryDrain (handlePollingFailure "boom" (fixJobs 4))).1
          = List.count "g" (fixJobs 4).pendingRetries + 1 ∧
        ∀ newJobId now, ∃ rec,
          getKey (reloadJobSuccess "g" true newJobId now
            (handlePollingFailure "boom" (fixJobs 4))).jobs "g" = some rec ∧
          rec.jobId = newJobId ∧ rec.status = .pending ∧ rec.isRetrying = true ∧
          rec.retryCount = 1 ∧ rec.pollingFailureCount = 0) :=
  C1_transport_failure_threshold (fixJobs 4) "boom" "g" w1job (by decide) (by decide)
    (by decide) (by decide)

/-- The single inner `if` of `handlePollingFailure` does nothing beyond the
counter increment for a job that has already been retried. -/
theorem failJobUpdate_retried {job : GraphJob} (msg : String)
    (hact : job.status = .pending ∨ job.status = .processing)
    (hr : job.retryCount ≠ 0) :
    failJobUpdate msg job = { job with pollingFailureCount := job.pollingFailureCount + 1 } := by
  unfold failJobUpdate
  rw [if_pos hact, if_neg]
  rintro ⟨-, h0⟩
  exact hr h0

/-- C4 (amended): for a replacement job (`retryCount ≥ 1`) still
pending/processing, a transport failure — including the one that breaches
the threshold again — only increments the failure counter: the status and
error are left untouched (no terminal error is surfaced) and no further
replacement `create()` is queued. -/
theorem C4_replacement_breach_no_action (s : HookState) (msg : String) (g : String)
    (job : GraphJob) (hnd : KeysNodup s)
    (hget : getKey s.jobs g = some job)
    (hact : job.status = .pending ∨ job.status = .processing)
    (hretry : job.retryCount ≠ 0) :
    ∃ job', getKey (handlePollingFailure msg s).jobs g = some job' ∧
      job'.pollingFailureCount = job.pollingFailureCount + 1 ∧
      job'.status = job.status ∧ job'.error = job.error ∧
      List.count g (handlePollingFailure msg s).pendingRetries
        = List.count g s.pendingRetries := by
  refine ⟨failJobUpdate msg job, ?_, failJobUpdate_count msg hact, ?_⟩
  · rw [getKey_handlePollingFailure, hget]
    rfl
  · rw [failJobUpdate_retried msg hact hretry]
    refine ⟨rfl, rfl, ?_⟩
    rw [count_pendingRetries_handle msg hnd hget, if_neg]
    · omega
    · rintro ⟨-, -, h0⟩
      exact hretry h0

/-- C4 counterexample: in `c4state` the replacement job `"j2"`
(`retryCount = 1`) has four consecutive transport failures; the fifth
breaches the threshold, yet its local status stays `pending` — no terminal
error is surfaced to the user — and the pending-retry queue is unchanged. -/
theorem C4_counterexample :
    getKey (pollFailure "e" c4state).jobs "g"
        = some ({ c4job with pollingFailureCount := 5 }) ∧
      ({ c4job with pollingFailureCount := 5 } : GraphJob).status = .pending ∧
      (pollFailure "e" c4state).pendingRetries = c4state.pendingRetries := by
  refine ⟨by decide, by decide, by decide⟩

/-- Witness for the amended C4 on the concrete replacement-job state. -/
theorem C4_witness :
    ∃ job', getKey (handlePollingFailure "e" c4state).jobs "g" = some job' ∧
      job'.pollingFailureCount = c4job.pollingFailureCount + 1 ∧
      job'.status = c4job.status ∧ job'.error = c4job.error ∧
      List.count "g" (handlePollingFailure "e" c4state).pendingRetries
        = List.count "g" c4state.pendingRetries :=
  C4_replacement_breach_no_action c4state "e" "g" c4job (by decide) (by decide)
    (by decide) (by decide)

/-- Witness for C2: the fifth transport failure from the concrete
four-failure state queues `"g"`, whose tracked job indeed has
`retryCount = 0`. -/
theorem C2_witness :
    "g" ∈ (fixJobs 4).pendingRetries ∨
      ∃ j, ("g", j) ∈ (fixJobs 4).jobs ∧ j.retryCount = 0 := by
  have hreach : Reachable (fixJobs 4) := by
    have h0 : Reachable startState :=
      Relation.ReflTransGen.single (Step.createOk [⟨"j1", "g"⟩] 0 initState)
    have h1 := Relation.ReflTransGen.tail h0 (Step.pollFail "e" startState)
    have h2 := Relation.ReflTransGen.tail h1 (Step.pollFail "e" _)
    have h3 := Relation.ReflTransGen.tail h2 (Step.pollFail "e" _)
    have h4 := Relation.ReflTransGen.tail h3 (Step.pollFail "e" _)
    exact h4
  exact C2_bounded_retry (fixJobs 4) (pollFailure "e" (fixJobs 4)) hreach
    (Step.pollFail "e" (fixJobs 4)) "g" (by decide)

/-! ### Projections of the `pollStatus` success handler -/

theorem applyPollResponse_jobs (data : List (String × BatchJobStatusInfo))
    (s : HookState) :
    (applyPollResponse data s).jobs = (data.foldl pollStep (pollInit s)).updated := rfl

theorem applyPollResponse_jobIds (data : List (String × BatchJobStatusInfo))
    (s : HookState) :
    (applyPollResponse data s).jobIds =
      (if (data.foldl pollStep (pollInit s)).completedJobIds.isEmpty then s.jobIds
        else s.jobIds.filter (fun id => !((data.foldl pollStep (pollInit s)).completedJobIds.contains id))) := rfl

theorem applyPollResponse_pendingRetries (data : List (String × BatchJobStatusInfo))
    (s : HookState) :
    (applyPollResponse data s).pendingRetries =
      (if (data.foldl pollStep (pollInit s)).retryTargets.isEmpty then s.pendingRetries
        else s.pendingRetries ++ (data.foldl pollStep (pollInit s)).retryTargets) := rfl

theorem applyPollResponse_pollingActive (data : List (String × BatchJobStatusInfo))
    (s : HookState) :
    (applyPollResponse data s).pollingActive =
      (if (data.foldl pollStep (pollInit s)).allCompleted && (data.foldl pollStep (pollInit s)).retryTargets.isEmpty then false
        else s.pollingActive) := rfl

theorem applyPollResponse_isLoading (data : List (String × BatchJobStatusInfo))
    (s : HookState) :
    (applyPollResponse data s).isLoading =
      (if (data.foldl pollStep (pollInit s)).allCompleted && (data.foldl pollStep (pollInit s)).retryTargets.isEmpty then false
        else s.isLoading) := rfl

/-- C5: polling for a batch stops exactly at the successful `batchStatus`
response that reports every entry terminal and produces no retry target:
(1) if every entry of the response is terminal and no entry is a
failed/timeout report for a never-retried tracked job, the polling interval
is cleared and loading ends; (2) every job id reported terminal for a
tracked job is removed from the polled id set; (3) a response containing a
non-terminal report for a tracked job leaves the polling interval and the
loading flag untouched. -/
theorem C5_batch_termination (s : HookState) (data : List (String × BatchJobStatusInfo))
    (hnd : KeysNodup s) (hIds : ¬ s.jobIds.isEmpty) :
    ((∀ e ∈ data, isTerminalStatus e.2.status = true) →
      (∀ e ∈ data, isFailedStatus e.2.status = true →
        ∀ p ∈ s.jobs, p.2.jobId = e.1 → p.2.retryCount ≠ 0) →
      (pollSuccess data s).pollingActive = false ∧
        (pollSuccess data s).isLoading = false) ∧
    (∀ jid st, (jid, st) ∈ data → isTerminalStatus st.status = true →
      (∃ p ∈ s.jobs, p.2.jobId = jid) → jid ∉ (pollSuccess data s).jobIds) ∧
    (∀ jid st, (jid, st) ∈ data → isTerminalStatus st.status = false →
      (∃ p ∈ s.jobs, p.2.jobId = jid) →
      (pollSuccess data s).pollingActive = s.pollingActive ∧
        (pollSuccess data s).isLoading = s.isLoading) := by
  have hps : pollSuccess data s = applyPollResponse data s := by
    unfold pollSuccess
    rw [if_neg hIds]
  rw [hps]
  refine ⟨?_, ?_, ?_⟩
  · intro hterm hnoretry
    have hall : (data.foldl pollStep (pollInit s)).allCompleted = true :=
      pfold_allCompleted_terminal data _ hterm
    have hretry0 : (data.foldl pollStep (pollInit s)).retryTargets = [] :=
      pfold_no_new_retry data _ hnd hnoretry
    rw [applyPollResponse_pollingActive, applyPollResponse_isLoading, hall, hretry0]
    simp
  · intro jid st hmem hterm hex
    have hjmem : jid ∈ (data.foldl pollStep (pollInit s)).completedJobIds :=
      pfold_completed_of_entry data _ hnd jid st hmem hterm hex
    rw [applyPollResponse_jobIds, if_neg]
    · intro hmem'
      have h2 := (List.mem_filter.mp hmem').2
      have hc : (data.foldl pollStep (pollInit s)).completedJobIds.contains jid = true :=
        List.elem_eq_true_of_mem hjmem
      rw [hc] at h2
      simp at h2
    · intro hemp
      rw [List.isEmpty_iff.mp hemp] at hjmem
      simp at hjmem
  · intro jid st hmem hterm hex
    have hfls : (data.foldl pollStep (pollInit s)).allCompleted = false :=
      pfold_allCompleted_nonterminal data _ hnd jid st hmem
        (by simpa using hterm) hex
    rw [applyPollResponse_pollingActive, applyPollResponse_isLoading, hfls]
    simp

/-- Witness for C5 on the concrete one-job batch: a completed report stops
polling and drops the id; a processing report keeps polling. -/
theorem C5_witness :
    ((pollSuccess [("j1", completedInfo)] startState).pollingActive = false ∧
      (pollSuccess [("j1", completedInfo)] startState).isLoading = false) ∧
    "j1" ∉ (pollSuccess [("j1", completedInfo)] startState).jobIds ∧
    ((pollSuccess [("j1", processingInfo)] startState).pollingActive
        = startState.pollingActive ∧
      (pollSuccess [("j1", processingInfo)] startState).isLoading
        = startState.isLoading) := by
  refine ⟨?_, ?_, ?_⟩
  · exact (C5_batch_termination startState [("j1", completedInfo)] (by decide)
      (by decide)).1 (by decide) (by decide)
  · exact (C5_batch_termination startState [("j1", completedInfo)] (by decide)
      (by decide)).2.1 "j1" completedInfo (by decide) (by decide) (by decide)
  · exact (C5_batch_termination startState [("j1", processingInfo)] (by decide)
      (by decide)).2.2 "j1" processingInfo (by decide) (by decide) (by decide)

/-! ### The matched-entry shape of `pollStep`, and unknown entries -/

theorem isTerminal_of_isFailed {v : JobStatusValue} (h : isFailedStatus v = true) :
    isTerminalStatus v = true := by
  cases v <;> simp_all [isFailedStatus, isTerminalStatus]

theorem ne_completed_of_isFailed {v : JobStatusValue} (h : isFailedStatus v = true) :
    v ≠ .completed := by
  cases v <;> simp_all [isFailedStatus]

theorem pollStep_found {acc : PollAcc} {e : String × BatchJobStatusInfo} {g : String}
    {job : GraphJob}
    (hfind : acc.updated.find? (fun p => p.2.jobId == e.1) = some (g, job)) :
    pollStep acc e = pollStepFound acc e g job := by
  unfold pollStep pollStepFound
  rw [hfind]

theorem applyPollResponse_congr {d₁ d₂ : List (String × BatchJobStatusInfo)}
    (s : HookState) (h : d₁.foldl pollStep (pollInit s) = d₂.foldl pollStep (pollInit s)) :
    applyPollResponse d₁ s = applyPollResponse d₂ s := by
  unfold applyPollResponse
  rw [h]

/-- C10: a `batchStatus` response entry whose job id matches no tracked
job is ignored entirely: deleting the unknown entry from the response
leaves the resulting hook state — job records, polled id set,
pending retries, the stop-polling decision — character-for-character
unchanged. -/
theorem C10_unknown_entry_ignored (s : HookState)
    (d₁ d₂ : List (String × BatchJobStatusInfo)) (jid : String)
    (st : BatchJobStatusInfo) (hnd : KeysNodup s)
    (hunk : ∀ p ∈ s.jobs, p.2.jobId ≠ jid) :
    pollSuccess (d₁ ++ (jid, st) :: d₂) s = pollSuccess (d₁ ++ d₂) s := by
  unfold pollSuccess
  by_cases hIds : s.jobIds.isEmpty
  · rw [if_pos hIds, if_pos hIds]
  · rw [if_neg hIds, if_neg hIds]
    apply applyPollResponse_congr
    rw [List.foldl_append, List.foldl_append, List.foldl_cons]
    congr 1
    apply pollStep_none
    rw [List.find?_eq_none]
    intro p hp
    obtain ⟨g', j'⟩ := p
    rcases mem_of_info_eq (pfold_info d₁ (pollInit s) hnd) hp with ⟨j₀, hj₀, hid, -⟩
    have hne := hunk (g', j₀) hj₀
    simp only [beq_iff_eq]
    intro hEq
    exact hne (by rw [hid]; exact hEq)

/-- Witness for C10: a response carrying an unknown id `"jX"` next to a
real completion report is processed exactly like the response without it. -/
theorem C10_witness :
    pollSuccess [("jX", failedInfo), ("j1", completedInfo)] startState
      = pollSuccess [("j1", completedInfo)] startState :=
  C10_unknown_entry_ignored startState [] [("j1", completedInfo)] "jX" failedInfo
    (by decide) (by decide)

/-- C3 (amended): when a successful `batchStatus` response reports a
tracked job `failed` or `timeout`, the client records the terminal status
and error locally, leaves `resultUrl` null, and removes the job id from
the polled set; but contrary to the claim, the server-reported failure of
a never-retried job (`retryCount = 0`) does queue exactly one automatic
replacement `create()` — only an already-retried job produces none. -/
theorem C3_server_reported_failure (s : HookState)
    (d₁ d₂ : List (String × BatchJobStatusInfo)) (jid : String)
    (st : BatchJobStatusInfo) (g : String) (job : GraphJob)
    (hnd : KeysNodup s)
    (hjnd : (s.jobs.map (fun p => p.2.jobId)).Nodup)
    (hIds : ¬ s.jobIds.isEmpty)
    (hget : getKey s.jobs g = some job)
    (hjid : job.jobId = jid)
    (hfail : isFailedStatus st.status = true)
    (hd₁ : ∀ e ∈ d₁, e.1 ≠ jid) (hd₂ : ∀ e ∈ d₂, e.1 ≠ jid) :
    ∃ job', getKey (pollSuccess (d₁ ++ (jid, st) :: d₂) s).jobs g = some job' ∧
      job'.status = st.status ∧ job'.error = st.error ∧ job'.resultUrl = none ∧
      jid ∉ (pollSuccess (d₁ ++ (jid, st) :: d₂) s).jobIds ∧
      ((g ∈ (pollSuccess (d₁ ++ (jid, st) :: d₂) s).pendingRetries) ↔
        (g ∈ s.pendingRetries ∨ job.retryCount = 0)) := by
  have hps : pollSuccess (d₁ ++ (jid, st) :: d₂) s
      = applyPollResponse (d₁ ++ (jid, st) :: d₂) s := by
    unfold pollSuccess
    rw [if_neg hIds]
  have hinfo1 : (d₁.foldl pollStep (pollInit s)).updated.map jobKeyInfo
      = s.jobs.map jobKeyInfo := pfold_info d₁ (pollInit s) hnd
  have hnd1 : ((d₁.foldl pollStep (pollInit s)).updated.map Prod.fst).Nodup :=
    pfold_nodup d₁ (pollInit s) hnd
  obtain ⟨hget1, hiff1⟩ := pfold_avoid d₁ (pollInit s) g job hnd hget
    (fun e he => by rw [hjid]; exact hd₁ e he)
  have hnotin1 : g ∉ (d₁.foldl pollStep (pollInit s)).retryTargets := by
    intro h
    simpa [pollInit] using hiff1.mp h
  have hjnd1 : ((d₁.foldl pollStep (pollInit s)).updated.map
      (fun p => p.2.jobId)).Nodup := by
    rw [jobIds_of_info hinfo1]
    exact hjnd
  have hfind : (d₁.foldl pollStep (pollInit s)).updated.find?
      (fun p => p.2.jobId == jid) = some (g, job) :=
    find_jobId_nodup hjnd1 (mem_of_getKey hget1) hjid
  have hstep : pollStep (d₁.foldl pollStep (pollInit s)) (jid, st)
      = pollStepFound (d₁.foldl pollStep (pollInit s)) (jid, st) g job :=
    pollStep_found hfind
  have hterm : isTerminalStatus st.status = true := isTerminal_of_isFailed hfail
  have hget2 : getKey (pollStepFound (d₁.foldl pollStep (pollInit s)) (jid, st) g job).updated g
      = some (pollNewJob (jid, st) job) := getKey_setKey_self _ _ _
  have hnd2 : ((pollStepFound (d₁.foldl pollStep (pollInit s)) (jid, st) g job).updated.map
      Prod.fst).Nodup := by
    unfold pollStepFound
    simp only
    rw [keys_setKey _ (by rw [hget1]; rfl)]
    exact hnd1
  obtain ⟨hgetF, hiffF⟩ := pfold_avoid d₂
    (pollStepFound (d₁.foldl pollStep (pollInit s)) (jid, st) g job) g
    (pollNewJob (jid, st) job) hnd2 hget2
    (fun e he => by
      show e.1 ≠ (pollNewJob (jid, st) job).jobId
      have : (pollNewJob (jid, st) job).jobId = jid := by rw [← hjid]; rfl
      rw [this]
      exact hd₂ e he)
  have hcmem : jid ∈ (d₂.foldl pollStep
      (pollStepFound (d₁.foldl pollStep (pollInit s)) (jid, st) g job)).completedJobIds := by
    apply pfold_completed_mono
    unfold pollStepFound
    simp only
    rw [if_pos hterm]
    exact List.mem_append.mpr (Or.inr (List.mem_singleton.mpr rfl))
  have hfoldD : (d₁ ++ (jid, st) :: d₂).foldl pollStep (pollInit s)
      = d₂.foldl pollStep (pollStepFound (d₁.foldl pollStep (pollInit s)) (jid, st) g job) := by
    rw [List.foldl_append, List.foldl_cons, hstep]
  have hstep_iff : (g ∈ (pollStepFound (d₁.foldl pollStep (pollInit s)) (jid, st) g job).retryTargets)
      ↔ job.retryCount = 0 := by
    unfold pollStepFound
    simp only
    by_cases hrc : job.retryCount = 0
    · rw [if_pos ⟨hfail, hrc⟩]
      simp [hrc]
    · rw [if_neg (by rintro ⟨-, h⟩; exact hrc h)]
      simp [hrc, hnotin1]
  refine ⟨pollNewJob (jid, st) job, ?_, rfl, rfl, ?_, ?_, ?_⟩
  · rw [hps, applyPollResponse_jobs, hfoldD]
    exact hgetF
  · show (if st.status = .completed then some (resultPath (jid, st).1) else none) = none
    rw [if_neg (ne_completed_of_isFailed hfail)]
  · rw [hps, applyPollResponse_jobIds, hfoldD, if_neg]
    · intro hmem'
      have h2 := (List.mem_filter.mp hmem').2
      have hc := List.elem_eq_true_of_mem hcmem
      rw [show (d₂.foldl pollStep (pollStepFound (d₁.foldl pollStep (pollInit s)) (jid, st) g job)).completedJobIds.contains jid = true from hc] at h2
      simp at h2
    · intro hemp
      rw [List.isEmpty_iff.mp hemp] at hcmem
      simp at hcmem
  · rw [hps, applyPollResponse_pendingRetries, hfoldD, mem_appendIf, hiffF, hstep_iff]

/-- Witness for the amended C3: a one-entry failure report on the fresh
single-job batch. -/
theorem C3_witness :
    ∃ job', getKey (pollSuccess ([] ++ ("j1", failedInfo) :: []) startState).jobs "g"
        = some job' ∧
      job'.status = failedInfo.status ∧ job'.error = failedInfo.error ∧
      job'.resultUrl = none ∧
      "j1" ∉ (pollSuccess ([] ++ ("j1", failedInfo) :: []) startState).jobIds ∧
      (("g" ∈ (pollSuccess ([] ++ ("j1", failedInfo) :: []) startState).pendingRetries) ↔
        ("g" ∈ startState.pendingRetries ∨ startJob.retryCount = 0)) :=
  C3_server_reported_failure startState [] [] "j1" failedInfo "g" startJob
    (by decide) (by decide) (by decide) (by decide) (by decide) (by decide)
    (by simp) (by simp)

/-- C3 counterexample: the claim says a server-reported failure triggers no
automatic replacement `create()`; on the code, a failed report for the
never-retried job `"j1"` queues graph `"g"` for automatic retry, and the
auto-retry drain issues exactly that replacement `create()` call. -/
theorem C3_counterexample :
    (pollSuccess [("j1", failedInfo)] startState).pendingRetries = ["g"] ∧
      (autoRetryDrain (pollSuccess [("j1", failedInfo)] startState)).1 = ["g"] := by
  refine ⟨by decide, by decide⟩

/-! ### The `resultUrl` coherence property -/

theorem jobUrlOk_initial (j : JobInfo) (now : Int) : jobUrlOk (initialJob j now) := by
  constructor
  · simp [initialJob]
  · simp [initialJob]

theorem jobUrlOk_pollNewJob {e : String × BatchJobStatusInfo} {job : GraphJob}
    (hjid : job.jobId = e.1) : jobUrlOk (pollNewJob e job) := by
  unfold jobUrlOk pollNewJob
  by_cases hc : e.2.status = .completed
  · rw [if_pos hc]
    refine ⟨by simp [hc], ?_⟩
    intro u hu
    cases hu
    rw [hjid]
  · rw [if_neg hc]
    exact ⟨by simp [hc], by simp⟩

theorem jobUrlOk_failJobUpdate (msg : String) {j : GraphJob} (h : jobUrlOk j) :
    jobUrlOk (failJobUpdate msg j) := by
  unfold failJobUpdate
  by_cases hact : j.status = .pending ∨ j.status = .processing
  · rw [if_pos hact]
    have hurl : j.resultUrl = none := by
      cases hu : j.resultUrl with
      | none => rfl
      | some u =>
          have hc : j.status = .completed := h.1.mp (by simp [hu])
          rcases hact with h1 | h1 <;> simp [hc] at h1
    by_cases hth : POLLING_FAILURE_THRESHOLD ≤ j.pollingFailureCount + 1 ∧ j.retryCount = 0
    · rw [if_pos hth]
      exact ⟨by simp [hurl], by simp [hurl]⟩
    · rw [if_neg hth]
      exact ⟨h.1, h.2⟩
  · rw [if_neg hact]
    exact h

theorem urlOk_createJobs (data : List JobInfo) (now : Int) :
    ∀ m : List (String × GraphJob), ResultUrlInv m →
      ResultUrlInv (data.foldl (fun m j => setKey m j.graph_name (initialJob j now)) m) := by
  induction data with
  | nil => intro m hm; exact hm
  | cons j rest ih =>
      intro m hm
      exact ih _ (forall_mem_setKey hm (jobUrlOk_initial j now))

theorem pfold_urlOk (data : List (String × BatchJobStatusInfo)) :
    ∀ acc : PollAcc, (∀ p ∈ acc.updated, jobUrlOk p.2) →
      ∀ p ∈ (data.foldl pollStep acc).updated, jobUrlOk p.2 := by
  induction data with
  | nil => intro acc h; exact h
  | cons e rest ih =>
      intro acc h
      refine ih _ ?_
      cases hf : acc.updated.find? (fun p => p.2.jobId == e.1) with
      | none =>
          rw [pollStep_none hf]
          exact h
      | some pr =>
          obtain ⟨g', j'⟩ := pr
          have hjid : j'.jobId = e.1 := by simpa using List.find?_some hf
          rw [pollStep_found hf]
          unfold pollStepFound
          exact forall_mem_setKey h (jobUrlOk_pollNewJob hjid)

theorem keysNodup_pre (g : String) (isAutoRetry : Bool) {s : HookState}
    (hnd : KeysNodup s) :
    (((if isAutoRetry then (preRetrySet g s).jobs else s.jobs)).map Prod.fst).Nodup := by
  cases isAutoRetry with
  | false => exact hnd
  | true =>
      simp only [if_pos rfl]
      unfold preRetrySet
      cases hg : getKey s.jobs g with
      | none => exact hnd
      | some j => exact keys_setKey_nodup hnd

/-- C9 (amended): the coherence property "`resultUrl` is non-null iff the
status is `completed`, and then equals the result endpoint path of the
record's job id" is preserved by `createJobs`, by `pollStatus` (success
and transport failure), and by a successful `reloadJob` in both modes; a
failed auto-retry `reloadJob` preserves it only when the target record's
`resultUrl` is null — which the claim's blanket statement misses, because
a locally-failed job whose id is still polled can meanwhile be reported
`completed` and then a failing replacement `create()` leaves a `failed`
record with a stale non-null `resultUrl`. -/
theorem C9_resulturl_coherence (s : HookState) (hnd : KeysNodup s)
    (hinv : ResultUrlInv s.jobs) :
    (∀ data now, ResultUrlInv (createJobsSuccess data now s).jobs) ∧
    (∀ data, ResultUrlInv (pollSuccess data s).jobs) ∧
    (∀ msg, ResultUrlInv (pollFailure msg s).jobs) ∧
    (∀ g isAutoRetry newJobId now,
      ResultUrlInv (reloadJobSuccess g isAutoRetry newJobId now s).jobs) ∧
    (∀ g isAutoRetry, (∀ j, getKey s.jobs g = some j → j.resultUrl = none) →
      ResultUrlInv (reloadJobFailure g isAutoRetry s).jobs) := by
  refine ⟨?_, ?_, ?_, ?_, ?_⟩
  · intro data now
    exact urlOk_createJobs data now [] (by intro p hp; simp at hp)
  · intro data
    unfold pollSuccess
    by_cases hIds : s.jobIds.isEmpty
    · rw [if_pos hIds]; exact hinv
    · rw [if_neg hIds]
      intro p hp
      rw [applyPollResponse_jobs] at hp
      exact pfold_urlOk data (pollInit s) hinv p hp
  · intro msg
    unfold pollFailure
    by_cases hIds : s.jobIds.isEmpty
    · rw [if_pos hIds]; exact hinv
    · rw [if_neg hIds]
      unfold handlePollingFailure
      intro p hp
      rcases List.mem_map.mp hp with ⟨q, hq, hEq⟩
      rw [← hEq]
      exact jobUrlOk_failJobUpdate msg (hinv q hq)
  · intro g isAutoRetry newJobId now
    obtain ⟨v, hv, hvs, hvu⟩ := jobs_reloadJobSuccess g isAutoRetry newJobId now s
    intro p hp
    rw [hv] at hp
    rcases mem_setKey_nodup (keysNodup_pre g isAutoRetry hnd) hp with h1 | ⟨h1, hne⟩
    · subst h1
      exact ⟨by simp [hvu, hvs], by simp [hvu]⟩
    · cases isAutoRetry with
      | false => exact hinv p h1
      | true =>
          simp only [if_pos rfl] at h1
          unfold preRetrySet at h1
          cases hg0 : getKey s.jobs g with
          | none =>
              rw [hg0] at h1
              exact hinv p h1
          | some j0 =>
              rw [hg0] at h1
              rcases mem_setKey_aux h1 with h2 | h2
              · subst h2
                exact absurd rfl hne
              · exact hinv p h2
  · intro g isAutoRetry hcond
    cases isAutoRetry with
    | false => exact hinv
    | true =>
        cases hg0 : getKey s.jobs g with
        | none =>
            have hpre : preRetrySet g s = s := by
              unfold preRetrySet
              rw [hg0]
            have hid : reloadJobFailure g true s = s := by
              unfold reloadJobFailure
              simp [hpre, hg0]
            rw [hid]
            exact hinv
        | some j0 =>
            have hurl0 : j0.resultUrl = none := hcond j0 hg0
            have hpre : (preRetrySet g s).jobs = setKey s.jobs g (preJob j0) :=
              getKey_preRetrySet hg0
            have hgp : getKey (preRetrySet g s).jobs g = some (preJob j0) := by
              rw [hpre]
              exact getKey_setKey_self _ _ _
            have hjobs : (reloadJobFailure g true s).jobs =
                setKey (preRetrySet g s).jobs g (failRetryJob (preJob j0)) := by
              unfold reloadJobFailure
              simp [hgp]
            intro p hp
            rw [hjobs] at hp
            have hndPre : ((preRetrySet g s).jobs.map Prod.fst).Nodup := by
              rw [hpre]
              exact keys_setKey_nodup hnd
            rcases mem_setKey_nodup hndPre hp with h1 | ⟨h1, hne⟩
            · subst h1
              exact ⟨by simp [failRetryJob, preJob, hurl0], by simp [failRetryJob, preJob, hurl0]⟩
            · rw [hpre] at h1
              rcases mem_setKey_aux h1 with h2 | h2
              · subst h2
                exact absurd rfl hne
              · exact hinv p h2

/-- C9 counterexample: after `createJobs`, five transport failures (the
job goes locally `failed` with a retry queued while its id stays polled), a
successful poll reporting the job `completed` (installing `resultUrl`), and
a failing auto-retry `create()`, the reachable state `c9state` holds a
record with `status = failed` and a non-null `resultUrl` — the claimed
invariant is false. -/
theorem C9_counterexample :
    Reachable c9state ∧ getKey c9state.jobs "g" = some c9job ∧
      c9job.status = .failed ∧ c9job.resultUrl ≠ none := by
  refine ⟨?_, by decide, by decide, by decide⟩
  have h0 : Reachable startState :=
    Relation.ReflTransGen.single (Step.createOk [⟨"j1", "g"⟩] 0 initState)
  have h1 := Relation.ReflTransGen.tail h0 (Step.pollFail "e" startState)
  have h2 := Relation.ReflTransGen.tail h1 (Step.pollFail "e" _)
  have h3 := Relation.ReflTransGen.tail h2 (Step.pollFail "e" _)
  have h4 := Relation.ReflTransGen.tail h3 (Step.pollFail "e" _)
  have h5 := Relation.ReflTransGen.tail h4 (Step.pollFail "e" _)
  have h6 := Relation.ReflTransGen.tail h5
    (Step.pollOk [("j1", completedInfo)] (fixJobs 5))
  exact Relation.ReflTransGen.tail h6
    (Step.reloadFail "g" true (pollSuccess [("j1", completedInfo)] (fixJobs 5)))

/-- Witness for the amended C9 on the concrete fresh single-job state. -/
theorem C9_witness :
    (∀ data now, ResultUrlInv (createJobsSuccess data now startState).jobs) ∧
    (∀ data, ResultUrlInv (pollSuccess data startState).jobs) ∧
    (∀ msg, ResultUrlInv (pollFailure msg startState).jobs) ∧
    (∀ g isAutoRetry newJobId now,
      ResultUrlInv (reloadJobSuccess g isAutoRetry newJobId now startState).jobs) ∧
    (∀ g isAutoRetry,
      (∀ j, getKey startState.jobs g = some j → j.resultUrl = none) →
      ResultUrlInv (reloadJobFailure g isAutoRetry startState).jobs) := by
  refine C9_resulturl_coherence startState (by decide) ?_
  intro p hp
  have hp' : p = ("g", startJob) := by
    have : startState.jobs = [("g", startJob)] := by decide
    rw [this] at hp
    simpa using hp
  subst hp'
  exact ⟨by decide, by intro u hu; simp [show startJob.resultUrl = none from rfl] at hu⟩

/-! ### The stage label heuristic -/

/-- C8 counterexample: an empty-string stage is non-null, yet
`getStageText` falls through to the progress heuristic instead of
returning it (`if (stage)` tests truthiness, and `""` is falsy). -/
theorem C8_counterexample :
    getStageText (some "") 50 = "データ処理中..." ∧ getStageText (some "") 50 ≠ "" := by
  refine ⟨by decide, by decide⟩

/-- C8 (amended): `getStageText` returns the server-provided stage string
whenever it is non-null and non-empty, regardless of progress; when the
stage is null — or empty, which JavaScript truthiness also rejects — the
label is determined solely by the progress value, with breakpoints at 10,
40, 70 and 90 percent. -/
theorem C8_stage_text (stage : String) (p : Int) (hs : stage ≠ "") :
    getStageText (some stage) p = stage ∧
    getStageText none p = stageFromProgress p ∧
    getStageText (some "") p = stageFromProgress p ∧
    (p ≤ 10 → stageFromProgress p = "データベース接続中...") ∧
    (10 < p → p ≤ 40 → stageFromProgress p = "データ取得中...") ∧
    (40 < p → p ≤ 70 → stageFromProgress p = "データ処理中...") ∧
    (70 < p → p ≤ 90 → stageFromProgress p = "グラフ描画中...") ∧
    (90 < p → stageFromProgress p = "画像生成中...") := by
  refine ⟨?_, rfl, ?_, ?_, ?_, ?_, ?_, ?_⟩
  · show (if stage = "" then stageFromProgress p else stage) = stage
    rw [if_neg hs]
  · show (if "" = "" then stageFromProgress p else "") = stageFromProgress p
    rw [if_pos rfl]
  · intro h1
    unfold stageFromProgress
    rw [if_pos h1]
  · intro h1 h2
    unfold stageFromProgress
    rw [if_neg (by omega), if_pos h2]
  · intro h1 h2
    unfold stageFromProgress
    rw [if_neg (by omega), if_neg (by omega), if_pos h2]
  · intro h1 h2
    unfold stageFromProgress
    rw [if_neg (by omega), if_neg (by omega), if_neg (by omega), if_pos h2]
  · intro h1
    unfold stageFromProgress
    rw [if_neg (by omega), if_neg (by omega), if_neg (by omega), if_neg (by omega)]

/-- Witness for the amended C8 at a concrete non-empty stage. -/
theorem C8_witness :
    getStageText (some "rendering") 55 = "rendering" ∧
    getStageText none 55 = stageFromProgress 55 ∧
    getStageText (some "") 55 = stageFromProgress 55 ∧
    ((55 : Int) ≤ 10 → stageFromProgress 55 = "データベース接続中...") ∧
    ((10 : Int) < 55 → (55 : Int) ≤ 40 → stageFromProgress 55 = "データ取得中...") ∧
    ((40 : Int) < 55 → (55 : Int) ≤ 70 → stageFromProgress 55 = "データ処理中...") ∧
    ((70 : Int) < 55 → (55 : Int) ≤ 90 → stageFromProgress 55 = "グラフ描画中...") ∧
    ((90 : Int) < 55 → stageFromProgress 55 = "画像生成中...") :=
  C8_stage_text "rendering" 55 (by decide)

/-! ### The legacy image-URL cache-bucket behaviour -/

/-- C7: for fixed request parameters, two non-forced `getImageUrl` calls
whose wall-clock times fall in the same 10-minute bucket produce
character-for-character identical URLs (the random component is unused);
a forced call instead serialises the fresh millisecond timestamp `_t` and
a random `_r` component. -/
theorem C7_bucketed_url (endpoint startISO endISO : String) (la : Bool)
    (n₁ n₂ : Nat) (r₁ r₂ : String)
    (hb : n₁ / tenMinutesInMs = n₂ / tenMinutesInMs) :
    getImageUrl endpoint startISO endISO la n₁ false r₁
      = getImageUrl endpoint startISO endISO la n₂ false r₂ ∧
    getImageUrl endpoint startISO endISO la n₁ true r₁
      = endpoint ++ "?" ++ searchParamsString
          [("start", jsonStringify startISO), ("end", jsonStringify endISO),
           ("limit_altitude", if la then "true" else "false"),
           ("_t", toString n₁), ("_r", r₁)] := by
  constructor
  · unfold getImageUrl
    simp only [Bool.false_eq_true, if_false]
    rw [hb]
  · rfl

/-- Witness for C7: two wall-clock instants 123 s apart inside one
10-minute bucket, and a forced reload. -/
theorem C7_witness :
    getImageUrl "/modes-sensing/api/graph/scatter_2d" "2025-01-01T00:00:00.000Z"
        "2025-01-08T00:00:00.000Z" false 1700000123456 false "abc"
      = getImageUrl "/modes-sensing/api/graph/scatter_2d" "2025-01-01T00:00:00.000Z"
        "2025-01-08T00:00:00.000Z" false 1700000000000 false "xyz" ∧
    getImageUrl "/modes-sensing/api/graph/scatter_2d" "2025-01-01T00:00:00.000Z"
        "2025-01-08T00:00:00.000Z" false 1700000123456 true "abc"
      = "/modes-sensing/api/graph/scatter_2d" ++ "?" ++ searchParamsString
          [("start", jsonStringify "2025-01-01T00:00:00.000Z"),
           ("end", jsonStringify "2025-01-08T00:00:00.000Z"),
           ("limit_altitude", if false then "true" else "false"),
           ("_t", toString 1700000123456), ("_r", "abc")] :=
  C7_bucketed_url "/modes-sensing/api/graph/scatter_2d" "2025-01-01T00:00:00.000Z"
    "2025-01-08T00:00:00.000Z" false 1700000123456 1700000000000 "abc" "xyz" (by decide)

/-! ### The registry dedup gate -/

/-- C6: under the registry invariant (at most one live job per fingerprint,
fresh ids), `getOrCreate` (1) joins a live job for the fingerprint without
touching the registry, (2) reuses a completed non-expired job without
touching the registry, (3) otherwise registers and enqueues exactly one
fresh Pending job, and a second call while that job is still Pending
returns the same id and leaves the registry — in particular the worker
queue, so the pipeline runs exactly once — unchanged; and both invariants
are preserved. -/
theorem C6_dedup_gate (r : Registry) (fp : String)
    (hlive : AtMostOneLive r) (hfresh : FreshIds r) :
    (∀ j, r.jobs.find? (fun j => j.fingerprint == fp && decide j.live) = some j →
      getOrCreate fp r = (j.id, r)) ∧
    (r.jobs.find? (fun j => j.fingerprint == fp && decide j.live) = none →
      ∀ j, r.jobs.find? (fun j =>
          j.fingerprint == fp && j.status == .completed && !j.artifactExpired) = some j →
        getOrCreate fp r = (j.id, r)) ∧
    (r.jobs.find? (fun j => j.fingerprint == fp && decide j.live) = none →
      r.jobs.find? (fun j =>
          j.fingerprint == fp && j.status == .completed && !j.artifactExpired) = none →
      (getOrCreate fp r).1 = r.nextId ∧
      (getOrCreate fp r).2.queue = r.queue ++ [r.nextId] ∧
      getOrCreate fp (getOrCreate fp r).2 = (r.nextId, (getOrCreate fp r).2)) ∧
    (AtMostOneLive (getOrCreate fp r).2 ∧ FreshIds (getOrCreate fp r).2) := by
  refine ⟨?_, ?_, ?_, ?_⟩
  · intro j hj
    unfold getOrCreate
    rw [hj]
  · intro h1 j hj
    unfold getOrCreate
    rw [h1, hj]
  · intro h1 h2
    have hgo : getOrCreate fp r =
        (r.nextId, { jobs := r.jobs ++ [{ id := r.nextId, fingerprint := fp, status := .pending, artifactExpired := false }], nextId := r.nextId + 1, queue := r.queue ++ [r.nextId] }) := by
      unfold getOrCreate
      rw [h1, h2]
    refine ⟨by rw [hgo], by rw [hgo], ?_⟩
    rw [hgo]
    unfold getOrCreate
    rw [List.find?_append, h1]
    simp [RegJob.live]
  · by_cases h1 : (r.jobs.find? (fun j => j.fingerprint == fp && decide j.live)).isSome
    · obtain ⟨j, hj⟩ := Option.isSome_iff_exists.mp h1
      have : getOrCreate fp r = (j.id, r) := by
        unfold getOrCreate
        rw [hj]
      rw [this]
      exact ⟨hlive, hfresh⟩
    · have h1' : r.jobs.find? (fun j => j.fingerprint == fp && decide j.live) = none :=
        Option.not_isSome_iff_eq_none.mp h1
      by_cases h2 : (r.jobs.find? (fun j =>
          j.fingerprint == fp && j.status == .completed && !j.artifactExpired)).isSome
      · obtain ⟨j, hj⟩ := Option.isSome_iff_exists.mp h2
        have : getOrCreate fp r = (j.id, r) := by
          unfold getOrCreate
          rw [h1', hj]
        rw [this]
        exact ⟨hlive, hfresh⟩
      · have h2' : r.jobs.find? (fun j =>
            j.fingerprint == fp && j.status == .completed && !j.artifactExpired) = none :=
          Option.not_isSome_iff_eq_none.mp h2
        have hgo : getOrCreate fp r =
            (r.nextId, { jobs := r.jobs ++ [{ id := r.nextId, fingerprint := fp, status := .pending, artifactExpired := false }], nextId := r.nextId + 1, queue := r.queue ++ [r.nextId] }) := by
          unfold getOrCreate
          rw [h1', h2']
        rw [hgo]
        have hnolive : ∀ j ∈ r.jobs, j.fingerprint = fp → ¬ j.live := by
          intro j hj hfp hl
          have := List.find?_eq_none.mp h1' j hj
          simp [hfp, hl] at this
        constructor
        · intro j₁ hj₁ j₂ hj₂ hl₁ hl₂ hfp
          rcases List.mem_append.mp hj₁ with hm₁ | hm₁ <;>
            rcases List.mem_append.mp hj₂ with hm₂ | hm₂
          · exact hlive j₁ hm₁ j₂ hm₂ hl₁ hl₂ hfp
          · simp only [List.mem_singleton] at hm₂
            subst hm₂
            exact absurd hl₁ (hnolive j₁ hm₁ (by simpa using hfp))
          · simp only [List.mem_singleton] at hm₁
            subst hm₁
            exact absurd hl₂ (hnolive j₂ hm₂ (by simpa using hfp.symm))
          · simp only [List.mem_singleton] at hm₁ hm₂
            rw [hm₁, hm₂]
        · intro j hj
          rcases List.mem_append.mp hj with hm | hm
          · exact Nat.lt_succ_of_lt (hfresh j hm)
          · simp only [List.mem_singleton] at hm
            subst hm
            exact Nat.lt_succ_self _

/-- Witness for C6: the empty registry, a fresh creation and an immediate
duplicate call. -/
theorem C6_witness :
    (∀ j, (Registry.mk [] 0 []).jobs.find?
        (fun j => j.fingerprint == "fp" && decide j.live) = some j →
      getOrCreate "fp" (Registry.mk [] 0 []) = (j.id, Registry.mk [] 0 [])) ∧
    ((Registry.mk [] 0 []).jobs.find?
        (fun j => j.fingerprint == "fp" && decide j.live) = none →
      ∀ j, (Registry.mk [] 0 []).jobs.find? (fun j =>
          j.fingerprint == "fp" && j.status == .completed && !j.artifactExpired) = some j →
        getOrCreate "fp" (Registry.mk [] 0 []) = (j.id, Registry.mk [] 0 [])) ∧
    ((Registry.mk [] 0 []).jobs.find?
        (fun j => j.fingerprint == "fp" && decide j.live) = none →
      (Registry.mk [] 0 []).jobs.find? (fun j =>
          j.fingerprint == "fp" && j.status == .completed && !j.artifactExpired) = none →
      (getOrCreate "fp" (Registry.mk [] 0 [])).1 = (Registry.mk [] 0 []).nextId ∧
      (getOrCreate "fp" (Registry.mk [] 0 [])).2.queue
        = (Registry.mk [] 0 []).queue ++ [(Registry.mk [] 0 []).nextId] ∧
      getOrCreate "fp" (getOrCreate "fp" (Registry.mk [] 0 [])).2
        = ((Registry.mk [] 0 []).nextId, (getOrCreate "fp" (Registry.mk [] 0 [])).2)) ∧
    (AtMostOneLive (getOrCreate "fp" (Registry.mk [] 0 [])).2 ∧
      FreshIds (getOrCreate "fp" (Registry.mk [] 0 [])).2) :=
  C6_dedup_gate (Registry.mk [] 0 []) "fp" (by intro j hj; simp at hj)
    (by intro j hj; simp at hj)

end ModesSensing
